import Mathlib

/-! # Progress tracker of `script.js`

A shallow embedding of the functions of `src/script.js` (`awardBadge`,
`updateLoginStreak`, `initDemoUser`, `getFinancialTip`, `getNextMilestone`,
`updateProgressBar`, `getStreakMessage`, `getProfileTitle`, the three
validators, `exportUserData` and `importUserData`) and the properties of them
that the specification states.

Conventions of the embedding:

* the `currentUser` entry of `localStorage` is a `Store`: either absent or the
  record whose JSON text it holds (`JSON.parse (JSON.stringify u) = u` for the
  records modelled here: strings, integers, booleans, arrays and plain objects);
  for export and import, which handle the text itself, it is a `TextStore` and
  `JSON.parse`, `JSON.stringify` are services of the host (`JsonHost`);
* `points` and the point value handed to `awardBadge` are integers, as in the
  data model, and `walletBalance` is a rational amount; the arguments of the
  validators are JavaScript numbers (`JSNumber`): NaN, the infinities and the
  finite doubles, with every operation rounded as in IEEE 754;
* a property read `obj[key]` on a plain object looks at the object's own
  entries first and then at the members inherited from `Object.prototype`;
* `new Date(s)` is a service of the host: `DateHost.parse s` is the time value
  in milliseconds of the parsed date, or `none` for an Invalid Date (whose time
  value is `NaN`). The quotient `diffTime / 86400000` is taken exactly.
-/

namespace PblProject

/-! ## Data model -/

/-- The user record stored as JSON under the key `currentUser`. A missing
`currentStreak` or `lastLoginDate` (an `undefined` field) is `none`. The object
`completedModules` is the list of its own entries in insertion order. -/
structure User where
  username : String
  avatar : String
  points : Int
  badges : List String
  walletBalance : ℚ
  currentStreak : Option Int
  lastLoginDate : Option String
  completedModules : List (String × Bool)
deriving DecidableEq

/-- The entry `currentUser` of `localStorage`: `none` when `getItem` returns
`null`, otherwise the record that the stored JSON text parses to. -/
abbrev Store := Option User

/-! ## Property access on plain objects -/

/-- Names of the members that every plain object inherits from
`Object.prototype`. Each of them is a function, except `__proto__`, an accessor
that yields the prototype object; all are truthy when read. -/
def objectPrototypeMembers : List String :=
  ["constructor", "toString", "toLocaleString", "valueOf", "hasOwnProperty",
   "isPrototypeOf", "propertyIsEnumerable", "__proto__", "__defineGetter__",
   "__defineSetter__", "__lookupGetter__", "__lookupSetter__"]

/-- The value of a property read on an object whose own entries are booleans. -/
inductive PropValue where
  | undefined
  | bool (b : Bool)
  | inherited
deriving DecidableEq

/-- Truthiness of a property value, as tested by `if (...)`. -/
def PropValue.truthy : PropValue → Bool
  | .undefined => false
  | .bool b => b
  | .inherited => true

/-- The own entry of `key`, if there is one. -/
def ownProp : List (String × Bool) → String → Option Bool
  | [], _ => none
  | (k, v) :: rest, key => if k = key then some v else ownProp rest key

/-- The read `obj[key]`: the own entry if present, otherwise the inherited
member of that name, otherwise `undefined`. -/
def getProp (obj : List (String × Bool)) (key : String) : PropValue :=
  match ownProp obj key with
  | some v => .bool v
  | none => if key ∈ objectPrototypeMembers then .inherited else .undefined

/-- The assignment `obj[key] = true` when `obj[key]` has just been read as
falsy: an own entry is overwritten in place, otherwise a new entry is added
after the existing ones. (A falsy read excludes the inherited names without an
own entry, so no inherited setter is involved.) -/
def setTrue : List (String × Bool) → String → List (String × Bool)
  | [], key => [(key, true)]
  | (k, v) :: rest, key =>
    if k = key then (k, true) :: rest else (k, v) :: setTrue rest key

/-! ## Financial tips -/

/-- What `getFinancialTip` returns: a string, or (for a name that is not an own
key of the table but is inherited from `Object.prototype`) that member. -/
inductive TipValue where
  | text (s : String)
  | inheritedMember (name : String)
deriving DecidableEq

/-- Source `getFinancialTip`: the table of four tips, read with
`tips[moduleName] || "Great job! Keep learning."`. -/
def getFinancialTip (moduleName : String) : TipValue :=
  if moduleName = "budgeting" then
    .text "💡 Tip: Follow the 50-30-20 rule to manage income efficiently."
  else if moduleName = "saving" then
    .text "💡 Tip: Always build an emergency fund before investing."
  else if moduleName = "invest" then
    .text "💡 Tip: Diversification reduces financial risk."
  else if moduleName = "expense" then
    .text "💡 Tip: Small daily expenses accumulate over time."
  else if moduleName ∈ objectPrototypeMembers then
    .inheritedMember moduleName
  else
    .text "Great job! Keep learning."

/-! ## awardBadge -/

/-- What `awardBadge` does besides writing the store. -/
inductive Outcome where
  /-- No stored user: `window.location.href = 'index.html'`. -/
  | redirected
  /-- The alert "You have already completed this module!". -/
  | alreadyCompleted
  /-- The success alert, with the points, the badge name and the tip. -/
  | granted (points : Int) (badgeName : String) (tip : TipValue)
deriving DecidableEq

/-- The statement `if (!user.badges.includes(b)) user.badges.push(b)`. -/
def pushBadge (badges : List String) (badgeName : String) : List String :=
  if badgeName ∈ badges then badges else badges ++ [badgeName]

/-- The record that `awardBadge` writes back when the module is not yet
completed (source lines 30 to 39). -/
def grant (moduleName badgeName : String) (points : Int) (user : User) : User :=
  { user with
    badges := pushBadge user.badges badgeName
    points := user.points + points
    completedModules := setTrue user.completedModules moduleName }

/-- Source `awardBadge`: the store afterwards and the outcome shown. -/
def awardBadge (moduleName badgeName : String) (points : Int) (store : Store) :
    Store × Outcome :=
  match store with
  | none => (none, .redirected)
  | some user =>
    if (getProp user.completedModules moduleName).truthy then
      (some user, .alreadyCompleted)
    else
      (some (grant moduleName badgeName points user),
       .granted points badgeName (getFinancialTip moduleName))

/-- A call of `awardBadge`: module identifier, badge name, point value. -/
structure AwardCall where
  moduleName : String
  badgeName : String
  points : Int

/-- The store after a sequence of `awardBadge` calls, first call first. -/
def awardAll (calls : List AwardCall) (store : Store) : Store :=
  calls.foldl (fun s c => (awardBadge c.moduleName c.badgeName c.points s).1) store

/-! ## Login streak -/

/-- The host's date parser behind `new Date(s)`: the time value in
milliseconds since the epoch, or `none` for an Invalid Date. -/
structure DateHost where
  parse : String → Option Int

/-- Truthiness of `user.lastLoginDate`: a missing field and the empty string
are falsy. -/
def dateSet : Option String → Bool
  | none => false
  | some s => decide (s ≠ "")

/-- Ceiling of the exact quotient `a / b` for a positive divisor `b`. -/
def ceilDiv (a b : Int) : Int := -((-a) / b)

/-- Milliseconds in a day, `1000 * 60 * 60 * 24`. -/
def msPerDay : Int := 1000 * 60 * 60 * 24

/-- The `diffDays` of `updateLoginStreak`:
`Math.ceil((new Date(today) - new Date(lastLogin)) / 86400000)`;
`none` is `NaN`, the result when either date is invalid. -/
def diffDays (host : DateHost) (lastLogin today : String) : Option Int :=
  match host.parse today, host.parse lastLogin with
  | some t, some l => some (ceilDiv (t - l) msPerDay)
  | _, _ => none

/-- The expression `user.currentStreak || 1`: a missing streak and the streak
`0` are falsy. -/
def streakOrOne : Option Int → Int
  | none => 1
  | some n => if n = 0 then 1 else n

/-- Source `updateLoginStreak`, with `today` the string that
`new Date().toLocaleDateString()` returned. The result is the mutated record,
which is also the record written to the store. -/
def updateLoginStreak (host : DateHost) (today : String) (user : User) : User :=
  let streak : Option Int :=
    match user.lastLoginDate with
    | none => some 1
    | some lastLogin =>
      if lastLogin = "" then some 1
      else
        match diffDays host lastLogin today with
        | some 0 => user.currentStreak
        | some 1 => some (streakOrOne user.currentStreak + 1)
        | _ => some 1
  { user with currentStreak := streak, lastLoginDate := some today }

/-- The object literal `demoUser` of `initDemoUser`, with `today` the string
that `new Date().toLocaleDateString()` returned. -/
def demoUser (today : String) : User :=
  { username := "DemoUser"
    avatar := "💰"
    points := 50
    badges := ["Budget Beginner"]
    walletBalance := 750
    currentStreak := some 1
    lastLoginDate := some today
    completedModules :=
      [("budgeting", true), ("saving", false), ("invest", false), ("expense", false)] }

/-- Source `initDemoUser`: the store after the demo record is written. -/
def initDemoUser (today : String) : Store :=
  some (demoUser today)

/-- Midnights of six calendar days of 2026 in the zone America/New_York, as
time values: `new Date("11/1/2026")` and its neighbours on a host with that
zone and the `en-US` date format. Daylight saving time ends on 1 November 2026
at 2 a.m., so the midnights of 1 and 2 November are 25 hours apart. -/
def newYorkMidnights : List (String × Int) :=
  [("10/30/2026", 1793332800000), ("10/31/2026", 1793419200000),
   ("11/1/2026", 1793505600000), ("11/2/2026", 1793595600000),
   ("11/3/2026", 1793682000000), ("11/4/2026", 1793768400000)]

/-- The entry of a date string in a table of time values. -/
def lookupDate : List (String × Int) → String → Option Int
  | [], _ => none
  | (k, v) :: rest, s => if k = s then some v else lookupDate rest s

/-- A host in the zone America/New_York, on the six days of
`newYorkMidnights`; every other string is an Invalid Date here. -/
def newYorkHost : DateHost :=
  { parse := lookupDate newYorkMidnights }

/-! ## Predicates of the specification -/

/-- The streak is an integer that is at least 1. -/
def StreakPositive (user : User) : Prop :=
  ∃ n : Int, user.currentStreak = some n ∧ 1 ≤ n

/-- The streak invariant: if `lastLoginDate` is set then `currentStreak` is an
integer that is at least 1. -/
def StreakInv (user : User) : Prop :=
  dateSet user.lastLoginDate = true → StreakPositive user

/-! ## Milestones -/

/-- The object returned by `getNextMilestone`. -/
structure MilestoneInfo where
  milestone : Int
  pointsNeeded : Int
  reached : Bool
deriving DecidableEq

/-- The fixed milestone sequence. -/
def milestones : List Int := [50, 100, 150, 200, 250, 300]

/-- Source `getNextMilestone`. The test `!nextMilestone` is true when `find`
returned `undefined` and would also be true for a found milestone `0`. -/
def getNextMilestone (currentPoints : Int) : MilestoneInfo :=
  match milestones.find? (fun m => decide (m > currentPoints)) with
  | none => { milestone := 300, pointsNeeded := 0, reached := true }
  | some nextMilestone =>
    if nextMilestone = 0 then { milestone := 300, pointsNeeded := 0, reached := true }
    else
      { milestone := nextMilestone
        pointsNeeded := nextMilestone - currentPoints
        reached := false }

/-! ## Progress bar -/

/-- The four learning modules of the application. -/
def fixedModules : List String := ["budgeting", "saving", "invest", "expense"]

/-- The own keys of `completedModules`, in order. A plain object holds each own
key once. -/
def moduleKeys (user : User) : List String :=
  user.completedModules.map Prod.fst

/-- The keys of the entries of `completedModules` whose value is `true`. -/
def completedKeys (user : User) : List String :=
  (user.completedModules.filter (fun e => e.2)).map Prod.fst

/-- The constant `completedCount` of `updateProgressBar`:
`Object.values(user.completedModules).filter(v => v).length`. -/
def completedCount (user : User) : Nat :=
  ((user.completedModules.map Prod.snd).filter (fun v => v)).length

/-- The two texts that `updateProgressBar` can write into `progressMessage`. -/
inductive ProgressMessage where
  /-- The text "Congratulations! All modules completed!". -/
  | allCompleted
  /-- The text "N module(s) remaining", with `N = 4 - completedCount`. -/
  | remaining (n : Int)
deriving DecidableEq

/-- What `updateProgressBar` computes and writes to the page. -/
structure ProgressDisplay where
  completedCount : Nat
  progressPercentage : ℚ
  roundedPercentage : Int
  message : ProgressMessage

/-- Source `updateProgressBar`, with the three page elements present:
`progressPercentage = (completedCount / 4) * 100`, the text shows
`Math.round(progressPercentage)`, and the message branches on
`progressPercentage === 100`. -/
def updateProgressBar (user : User) : ProgressDisplay :=
  let progressPercentage : ℚ := ((completedCount user : ℚ) / 4) * 100
  { completedCount := completedCount user
    progressPercentage := progressPercentage
    roundedPercentage := ⌊progressPercentage + 1 / 2⌋
    message :=
      if progressPercentage = 100 then .allCompleted
      else .remaining (4 - (completedCount user : Int)) }

/-- The demo record of 4 November 2026 after `awardBadge` has been called for
`saving`, `invest`, `expense` and a fifth module `quiz`, 50 points each. -/
def fiveModulesUser : User :=
  { demoUser "11/4/2026" with
    points := 250
    badges := ["Budget Beginner", "Smart Saver", "Wise Investor", "Expense Tracker",
      "Quiz Champion"]
    completedModules :=
      [("budgeting", true), ("saving", true), ("invest", true), ("expense", true),
       ("quiz", true)] }

/-- The demo record of 4 November 2026 after `awardBadge` has been called for
`saving`, `invest` and `quiz`, 50 points each; `expense` is not completed. -/
def quizUser : User :=
  { demoUser "11/4/2026" with
    points := 200
    badges := ["Budget Beginner", "Smart Saver", "Wise Investor", "Quiz Champion"]
    completedModules :=
      [("budgeting", true), ("saving", true), ("invest", true), ("expense", false),
       ("quiz", true)] }

/-- The points follow the 50-point policy: the own keys of `completedModules`
are distinct (as in every plain object), every completed entry belongs to one
of the four modules, and points = 50 * (number of completed modules). -/
def PointsTrackModules (user : User) : Prop :=
  (moduleKeys user).Nodup ∧
  (∀ m ∈ completedKeys user, m ∈ fixedModules) ∧
  user.points = 50 * (completedCount user : Int)

/-- The calls of the 50-point policy: the module is one of the four fixed
modules and the point value is 50. -/
def PolicyCalls (calls : List AwardCall) : Prop :=
  ∀ c ∈ calls, c.moduleName ∈ fixedModules ∧ c.points = 50

/-! ## Streak message and profile title -/

/-- Source `getStreakMessage`. -/
def getStreakMessage (streak : Int) : String :=
  if streak ≥ 7 then "🏆 Financial Discipline Master!"
  else if streak ≥ 3 then "✨ Consistency Builder!"
  else "Keep it up!"

/-- Source `getProfileTitle`. -/
def getProfileTitle (points : Int) : String :=
  if points ≥ 200 then "💎 Money Master"
  else if points ≥ 100 then "🎯 Smart Planner"
  else "🌱 Financial Beginner"

/-- The tier rank of a profile title: 2 for the top title, 1 for the middle
title, 0 otherwise. -/
def tierRank (title : String) : Nat :=
  if title = "💎 Money Master" then 2
  else if title = "🎯 Smart Planner" then 1
  else 0

/-! ## JavaScript numbers

A number is NaN, one of the two infinities, or a finite IEEE 754 double. Every
finite double is an integer multiple of `2 ^ (-1074)`, so a finite number is
kept as that integer, and each arithmetic operation rounds its exact result to
the nearest double, ties to even, overflowing to an infinity. The sign of zero
is not kept: no comparison can tell `-0` from `0`. -/

/-- A JavaScript number; `finite k` is the value `k * 2 ^ (-1074)`. -/
inductive JSNumber where
  | nan
  | posInf
  | negInf
  | finite (k : Int)
deriving DecidableEq

/-- The nearest integer to `n / d`, ties to the even one. -/
def roundHalfEven (n d : Nat) : Nat :=
  let q := n / d
  let r := n % d
  if 2 * r < d then q
  else if d < 2 * r then q + 1
  else if q % 2 = 0 then q else q + 1

/-- The floor of the binary logarithm of `n`, by halving; `fuel = n` is enough. -/
def log2Fuel : Nat → Nat → Nat
  | 0, _ => 0
  | fuel + 1, n => if n < 2 then 0 else log2Fuel fuel (n / 2) + 1

/-- The double nearest to `n / d`, both in units of `2 ^ (-1074)`: below
`2 ^ 53` units the doubles are the integers, above them they keep 53
significant bits. -/
def roundToDouble (n d : Nat) : Nat :=
  let q := n / d
  if q < 2 ^ 53 then roundHalfEven n d
  else
    let s := log2Fuel q q - 52
    roundHalfEven n (d * 2 ^ s) * 2 ^ s

/-- The number 1 in units of `2 ^ (-1074)`. -/
def unitsPerOne : Nat := 2 ^ 1074

/-- The magnitude `2 ^ 1024`, the least that overflows, in units of
`2 ^ (-1074)`. -/
def overflowUnits : Nat := 2 ^ 2098

/-- The number nearest to `n / d` units of `2 ^ (-1074)`, with the given sign;
a rounded magnitude of `2 ^ 1024` or more overflows to an infinity. -/
def JSNumber.ofQuotient (negative : Bool) (n d : Nat) : JSNumber :=
  let m := roundToDouble n d
  if m ≥ overflowUnits then (if negative then .negInf else .posInf)
  else .finite (if negative then -(m : Int) else (m : Int))

/-- The number nearest to `k` units of `2 ^ (-1074)`. -/
def JSNumber.ofUnits (k : Int) : JSNumber :=
  .ofQuotient (decide (k < 0)) k.natAbs 1

/-- The number written as the decimal literal `m * 10 ^ (-e)`. -/
def JSNumber.ofDecimal (m : Int) (e : Nat) : JSNumber :=
  .ofQuotient (decide (m < 0)) (m.natAbs * unitsPerOne) (10 ^ e)

/-- The number written as the integer literal `n`. -/
def JSNumber.ofNat (n : Nat) : JSNumber :=
  .ofDecimal n 0

/-- The number `0`. -/
def JSNumber.zero : JSNumber := .finite 0

/-- The sign of a number that is not NaN: true when it is below zero. -/
def JSNumber.isNegative : JSNumber → Bool
  | .negInf => true
  | .finite k => decide (k < 0)
  | _ => false

/-- The operator `x - y`. -/
def JSNumber.sub : JSNumber → JSNumber → JSNumber
  | .nan, _ => .nan
  | _, .nan => .nan
  | .posInf, .posInf => .nan
  | .negInf, .negInf => .nan
  | .posInf, _ => .posInf
  | .negInf, _ => .negInf
  | .finite _, .posInf => .negInf
  | .finite _, .negInf => .posInf
  | .finite a, .finite b => .ofUnits (a - b)

/-- The operator `x * y`. -/
def JSNumber.mul : JSNumber → JSNumber → JSNumber
  | .nan, _ => .nan
  | _, .nan => .nan
  | .finite a, .finite b =>
    .ofQuotient (decide (a < 0) != decide (b < 0)) (a.natAbs * b.natAbs) unitsPerOne
  | x, y =>
    if x = .finite 0 ∨ y = .finite 0 then .nan
    else if x.isNegative != y.isNegative then .negInf else .posInf

/-- The operator `x / y`. -/
def JSNumber.div : JSNumber → JSNumber → JSNumber
  | .nan, _ => .nan
  | _, .nan => .nan
  | .finite a, .finite b =>
    if b = 0 then
      (if a = 0 then .nan else if a < 0 then .negInf else .posInf)
    else .ofQuotient (decide (a < 0) != decide (b < 0)) (a.natAbs * unitsPerOne) b.natAbs
  | .finite _, _ => .finite 0
  | x, .finite b => if x.isNegative != decide (b < 0) then .negInf else .posInf
  | _, _ => .nan

/-- The function `Math.abs`. -/
def JSNumber.abs : JSNumber → JSNumber
  | .nan => .nan
  | .posInf => .posInf
  | .negInf => .posInf
  | .finite k => .finite |k|

/-- The operator `x < y`; false when either side is NaN. -/
def JSNumber.lt : JSNumber → JSNumber → Bool
  | .nan, _ => false
  | _, .nan => false
  | .finite a, .finite b => decide (a < b)
  | .negInf, .negInf => false
  | .negInf, _ => true
  | _, .negInf => false
  | .posInf, _ => false
  | .finite _, .posInf => true

/-- The operator `x <= y`; false when either side is NaN. -/
def JSNumber.le : JSNumber → JSNumber → Bool
  | .nan, _ => false
  | _, .nan => false
  | .finite a, .finite b => decide (a ≤ b)
  | .negInf, _ => true
  | _, .posInf => true
  | _, _ => false

/-- The operator `x > y`. -/
def JSNumber.gt (x y : JSNumber) : Bool := y.lt x

/-- The operator `x >= y`. -/
def JSNumber.ge (x y : JSNumber) : Bool := y.le x

/-- The function `isNaN`, on a number. -/
def isNaN : JSNumber → Bool
  | .nan => true
  | _ => false

/-- The function `parseFloat`, on a number: the argument is converted to its
text and the text is read back, which gives the same number (also for NaN and
for the infinities, whose texts `parseFloat` recognises). -/
def parseFloat (value : JSNumber) : JSNumber := value

/-! ## Validation helpers -/

/-- Source `isValidPositiveNumber`, on a number. -/
def isValidPositiveNumber (value : JSNumber) : Bool :=
  let num := parseFloat value
  !isNaN num && num.gt .zero

/-- Source `isValidNonNegativeNumber`, on a number. -/
def isValidNonNegativeNumber (value : JSNumber) : Bool :=
  let num := parseFloat value
  !isNaN num && num.ge .zero

/-- The object returned by `validateBudget`. -/
inductive BudgetResult where
  | invalid (message : String)
  | valid (isBalanced : Bool) (surplus : JSNumber)
deriving DecidableEq

/-- Source `validateBudget`. -/
def validateBudget (income expenses : JSNumber) : BudgetResult :=
  if !isValidPositiveNumber income then
    .invalid "Income must be a positive number"
  else if !isValidNonNegativeNumber expenses then
    .invalid "Expenses cannot be negative"
  else
    .valid (income.ge expenses) (income.sub expenses)

/-- The object returned by `validateSavingGoal`. -/
inductive SavingGoalResult where
  | invalid (message : String)
  | valid (isRealistic : Bool) (maxAnnualSavings : JSNumber) (monthlyRequired : JSNumber)
deriving DecidableEq

/-- Source `validateSavingGoal`. -/
def validateSavingGoal (income expenses goal : JSNumber) : SavingGoalResult :=
  if !isValidPositiveNumber income || !isValidPositiveNumber goal then
    .invalid "Income and goal must be positive"
  else if !isValidNonNegativeNumber expenses then
    .invalid "Expenses cannot be negative"
  else
    let monthlySurplus := income.sub expenses
    if monthlySurplus.le .zero then
      .invalid "Monthly surplus is zero or negative. Balance your budget first."
    else
      let maxAnnualSavings := monthlySurplus.mul (.ofNat 12)
      .valid (goal.le maxAnnualSavings) maxAnnualSavings (goal.div (.ofNat 12))

/-- The object returned by `validateExpense`. -/
inductive ExpenseResult where
  | invalid (message : String)
  | valid (willOverspend : Bool) (newBalance : JSNumber) (remainingAmount : JSNumber)
deriving DecidableEq

/-- Source `validateExpense`. -/
def validateExpense (amount currentBalance : JSNumber) : ExpenseResult :=
  if !isValidPositiveNumber amount then
    .invalid "Amount must be positive"
  else
    let newBalance := currentBalance.sub amount
    .valid (newBalance.lt .zero) newBalance newBalance.abs

/-! ## Export and import

Here the entry `currentUser` is handled as text, so the store is the text
itself and `JSON.parse`, `JSON.stringify` are services of the host. -/

/-- A value that `JSON.parse` can return. -/
inductive JsonValue where
  | null
  | bool (b : Bool)
  | number (x : ℚ)
  | string (s : String)
  | array (items : List JsonValue)
  | object (members : List (String × JsonValue))

/-- Truthiness of a parsed value, as tested by `user ? ... : ...`. -/
def JsonValue.truthy : JsonValue → Bool
  | .null => false
  | .bool b => b
  | .number x => decide (x ≠ 0)
  | .string s => decide (s ≠ "")
  | .array _ => true
  | .object _ => true

/-- The JSON value of a user record: the object with the fields of the record,
a missing `currentStreak` or `lastLoginDate` left out. -/
def User.toJson (user : User) : JsonValue :=
  .object
    ([("username", .string user.username),
      ("avatar", .string user.avatar),
      ("points", .number user.points),
      ("badges", .array (user.badges.map JsonValue.string)),
      ("walletBalance", .number user.walletBalance)]
      ++ (match user.currentStreak with
          | none => []
          | some n => [("currentStreak", JsonValue.number n)])
      ++ (match user.lastLoginDate with
          | none => []
          | some d => [("lastLoginDate", JsonValue.string d)])
      ++ [("completedModules",
            .object (user.completedModules.map (fun e => (e.1, JsonValue.bool e.2))))])

/-- The host's JSON services: `parse s` is the value of `JSON.parse(s)`, or
`none` when it throws a `SyntaxError` (the text is not well-formed JSON);
`stringify v` is `JSON.stringify(v)` and `stringifyPretty v` is
`JSON.stringify(v, null, 2)`. -/
structure JsonHost where
  parse : String → Option JsonValue
  stringify : JsonValue → String
  stringifyPretty : JsonValue → String

/-- The text of the entry `currentUser` of `localStorage`, `none` when
`getItem` returns `null`. -/
abbrev TextStore := Option String

/-- Source `getCurrentUser`: `userStr ? JSON.parse(userStr) : null`. The result
`none` stands for the `SyntaxError` thrown on a stored text that is not JSON. -/
def getCurrentUser (host : JsonHost) (store : TextStore) : Option JsonValue :=
  match store with
  | none => some .null
  | some userStr => if userStr = "" then some .null else host.parse userStr

/-- Source `saveUser`: the store after `setItem('currentUser', JSON.stringify(user))`. -/
def saveUser (host : JsonHost) (user : JsonValue) : TextStore :=
  some (host.stringify user)

/-- Source `exportUserData`; `none` when `getCurrentUser` throws. -/
def exportUserData (host : JsonHost) (store : TextStore) : Option String :=
  match getCurrentUser host store with
  | none => none
  | some user => some (if user.truthy then host.stringifyPretty user else "No user data")

/-- Source `importUserData`: the store afterwards and the returned boolean. -/
def importUserData (host : JsonHost) (jsonString : String) (store : TextStore) :
    TextStore × Bool :=
  match host.parse jsonString with
  | some user => (saveUser host user, true)
  | none => (store, false)

/-- The text `JSON.stringify(demoUser)` for the demo record of 4 November 2026. -/
def demoCompactText : String :=
  "\x7b\"username\":\"DemoUser\",\"avatar\":\"💰\",\"points\":50," ++
  "\"badges\":[\"Budget Beginner\"],\"walletBalance\":750,\"currentStreak\":1," ++
  "\"lastLoginDate\":\"11/4/2026\",\"completedModules\":\x7b\"budgeting\":true," ++
  "\"saving\":false,\"invest\":false,\"expense\":false\x7d\x7d"

/-- The text `JSON.stringify(demoUser, null, 2)` for the same record. -/
def demoPrettyText : String :=
  "\x7b\n  \"username\": \"DemoUser\",\n  \"avatar\": \"💰\",\n  \"points\": 50,\n" ++
  "  \"badges\": [\n    \"Budget Beginner\"\n  ],\n  \"walletBalance\": 750,\n" ++
  "  \"currentStreak\": 1,\n  \"lastLoginDate\": \"11/4/2026\",\n" ++
  "  \"completedModules\": \x7b\n    \"budgeting\": true,\n    \"saving\": false,\n" ++
  "    \"invest\": false,\n    \"expense\": false\n  \x7d\n\x7d"

/-- A host's JSON services restricted to the demo record of 4 November 2026:
its two texts parse to the record and the record is written as those texts;
every other text is taken as not well-formed. -/
def demoJsonHost : JsonHost :=
  { parse := fun s =>
      if s = demoCompactText then some (demoUser "11/4/2026").toJson
      else if s = demoPrettyText then some (demoUser "11/4/2026").toJson
      else none
    stringify := fun _ => demoCompactText
    stringifyPretty := fun _ => demoPrettyText }

/-! ## Lemmas on property access -/

theorem ownProp_setTrue_self (obj : List (String × Bool)) (key : String) :
    ownProp (setTrue obj key) key = some true := by
  induction obj with
  | nil => simp [setTrue, ownProp]
  | cons e rest ih =>
    obtain ⟨k, v⟩ := e
    by_cases h : k = key
    · simp [setTrue, ownProp, h]
    · simp [setTrue, ownProp, h, ih]

theorem ownProp_setTrue_of_ne (obj : List (String × Bool)) (key other : String)
    (h : other ≠ key) : ownProp (setTrue obj key) other = ownProp obj other := by
  induction obj with
  | nil =>
    have h2 : ¬ key = other := fun e => h e.symm
    simp [setTrue, ownProp, h2]
  | cons e rest ih =>
    obtain ⟨k, v⟩ := e
    by_cases hk : k = key
    · subst hk
      have h2 : ¬ k = other := fun e => h e.symm
      simp [setTrue, ownProp, h2]
    · by_cases ho : k = other
      · subst ho
        simp [setTrue, ownProp, hk]
      · simp [setTrue, ownProp, hk, ho, ih]

theorem getProp_setTrue_self (obj : List (String × Bool)) (key : String) :
    getProp (setTrue obj key) key = .bool true := by
  simp [getProp, ownProp_setTrue_self]

theorem getProp_setTrue_of_ne (obj : List (String × Bool)) (key other : String)
    (h : other ≠ key) : getProp (setTrue obj key) other = getProp obj other := by
  simp [getProp, ownProp_setTrue_of_ne obj key other h]

theorem getProp_setTrue_of_true (obj : List (String × Bool)) (key m : String)
    (h : getProp obj m = .bool true) : getProp (setTrue obj key) m = .bool true := by
  by_cases hm : m = key
  · subst hm
    exact getProp_setTrue_self obj m
  · rw [getProp_setTrue_of_ne obj key m hm]
    exact h

theorem pushBadge_nodup (badges : List String) (badgeName : String)
    (h : badges.Nodup) : (pushBadge badges badgeName).Nodup := by
  unfold pushBadge
  split
  · exact h
  · rename_i hb
    rw [List.nodup_append]
    refine ⟨h, List.nodup_singleton _, ?_⟩
    intro a ha hs
    rw [List.mem_singleton] at hs
    subst hs
    exact hb ha

theorem awardBadge_of_truthy (m b : String) (p : Int) (u : User)
    (h : (getProp u.completedModules m).truthy = true) :
    awardBadge m b p (some u) = (some u, Outcome.alreadyCompleted) := by
  unfold awardBadge
  simp only [h, if_true]

theorem awardBadge_of_falsy (m b : String) (p : Int) (u : User)
    (h : (getProp u.completedModules m).truthy = false) :
    awardBadge m b p (some u) =
      (some (grant m b p u), Outcome.granted p b (getFinancialTip m)) := by
  unfold awardBadge
  simp [h]

theorem grant_truthy (m b : String) (p : Int) (u : User) :
    (getProp (grant m b p u).completedModules m).truthy = true := by
  have h : getProp (grant m b p u).completedModules m = .bool true :=
    getProp_setTrue_self _ _
  rw [h]
  rfl

/-- The store is kept present by `awardBadge`, and its record is either the old
one or the granted one. -/
theorem awardBadge_some (m b : String) (p : Int) (u : User) :
    (awardBadge m b p (some u)).1 = some u ∨
      ((getProp u.completedModules m).truthy = false ∧
        (awardBadge m b p (some u)).1 = some (grant m b p u)) := by
  unfold awardBadge
  by_cases h : (getProp u.completedModules m).truthy = true
  · left
    simp [h]
  · right
    simp at h
    simp [h]

/-! ## awardBadge: idempotence and the granted outcome -/

/-- C1: `awardBadge` is idempotent per module. For every store, module
identifier, badge name and point value, a second identical call leaves the
whole stored record (so its points, badges and completedModules) as the first
call left it, and when a record is stored the second call takes the
"already completed" exit. -/
theorem awardBadge_idempotent (m b : String) (p : Int) (store : Store) :
    (awardBadge m b p (awardBadge m b p store).1).1 = (awardBadge m b p store).1 ∧
    (awardBadge m b p (awardBadge m b p store).1).2 =
      (match store with
        | none => Outcome.redirected
        | some _ => Outcome.alreadyCompleted) := by
  cases store with
  | none => simp [awardBadge]
  | some u =>
    by_cases h : (getProp u.completedModules m).truthy = true
    · simp [awardBadge_of_truthy m b p u h]
    · simp at h
      simp [awardBadge_of_falsy m b p u h,
        awardBadge_of_truthy m b p _ (grant_truthy m b p u)]

/-- C2 at the failing input: in the demo record `completedModules["toString"]`
is not `true` (it is the inherited function, the module was never completed),
yet `awardBadge("toString", "Quick Learner", 50)` takes the "already
completed" exit: the record is unchanged, the points stay at 50 and no own
entry `toString` is written, where the granted outcome stores 100 points. -/
theorem awardBadge_inherited_name_not_granted :
    getProp (demoUser "11/4/2026").completedModules "toString" ≠ .bool true ∧
    awardBadge "toString" "Quick Learner" 50 (initDemoUser "11/4/2026") =
      (initDemoUser "11/4/2026", Outcome.alreadyCompleted) ∧
    (awardBadge "toString" "Quick Learner" 50 (initDemoUser "11/4/2026")).1.map User.points
      = some 50 := by
  decide

/-- The granted outcome where the code reaches it: when `completedModules[m]`
is neither `true` nor a member inherited from `Object.prototype` (so the read
is falsy), `awardBadge(m, b, p)` stores a record with points = old points + p,
`completedModules[m] = true`, badges = old badges with `b` appended exactly
when `b` was not present, and every other field (the reads of all other module
names, currentStreak, lastLoginDate, walletBalance, username, avatar)
unchanged. -/
theorem awardBadge_granted (m b : String) (p : Int) (u : User)
    (hTrue : getProp u.completedModules m ≠ .bool true)
    (hInherited : getProp u.completedModules m ≠ .inherited) :
    ∃ v : User, (awardBadge m b p (some u)).1 = some v ∧
      v.points = u.points + p ∧
      getProp v.completedModules m = .bool true ∧
      (b ∈ u.badges → v.badges = u.badges) ∧
      (b ∉ u.badges → v.badges = u.badges ++ [b]) ∧
      (∀ other : String, other ≠ m →
        getProp v.completedModules other = getProp u.completedModules other) ∧
      v.currentStreak = u.currentStreak ∧
      v.lastLoginDate = u.lastLoginDate ∧
      v.walletBalance = u.walletBalance ∧
      v.username = u.username ∧
      v.avatar = u.avatar := by
  have hf : (getProp u.completedModules m).truthy = false := by
    cases hg : getProp u.completedModules m with
    | undefined => rfl
    | bool v =>
      cases v with
      | false => rfl
      | true => exact absurd hg hTrue
    | inherited => exact absurd hg hInherited
  refine ⟨grant m b p u, ?_, rfl, ?_, ?_, ?_, ?_, rfl, rfl, rfl, rfl, rfl⟩
  · rw [awardBadge_of_falsy m b p u hf]
  · exact getProp_setTrue_self _ _
  · intro hb
    simp [grant, pushBadge, hb]
  · intro hb
    simp [grant, pushBadge, hb]
  · intro other ho
    exact getProp_setTrue_of_ne _ _ _ ho

/-- Witness of `awardBadge_granted`: the module `saving` of the demo record. -/
theorem awardBadge_granted_witness :
    ∃ v : User,
      (awardBadge "saving" "Smart Saver" 50 (some (demoUser "11/4/2026"))).1 = some v ∧
      v.points = (demoUser "11/4/2026").points + 50 ∧
      getProp v.completedModules "saving" = .bool true ∧
      ("Smart Saver" ∈ (demoUser "11/4/2026").badges →
        v.badges = (demoUser "11/4/2026").badges) ∧
      ("Smart Saver" ∉ (demoUser "11/4/2026").badges →
        v.badges = (demoUser "11/4/2026").badges ++ ["Smart Saver"]) ∧
      (∀ other : String, other ≠ "saving" →
        getProp v.completedModules other =
          getProp (demoUser "11/4/2026").completedModules other) ∧
      v.currentStreak = (demoUser "11/4/2026").currentStreak ∧
      v.lastLoginDate = (demoUser "11/4/2026").lastLoginDate ∧
      v.walletBalance = (demoUser "11/4/2026").walletBalance ∧
      v.username = (demoUser "11/4/2026").username ∧
      v.avatar = (demoUser "11/4/2026").avatar :=
  awardBadge_granted "saving" "Smart Saver" 50 (demoUser "11/4/2026")
    (by decide) (by decide)

/-! ## Invariants of awardBadge -/

theorem awardBadge_nodup (m b : String) (p : Int) (u : User) (h : u.badges.Nodup) :
    ∃ v : User, (awardBadge m b p (some u)).1 = some v ∧ v.badges.Nodup := by
  rcases awardBadge_some m b p u with h1 | ⟨_, h2⟩
  · exact ⟨u, h1, h⟩
  · exact ⟨grant m b p u, h2, pushBadge_nodup _ _ h⟩

theorem awardAll_nodup (calls : List AwardCall) :
    ∀ u : User, u.badges.Nodup →
      ∃ v : User, awardAll calls (some u) = some v ∧ v.badges.Nodup := by
  induction calls with
  | nil =>
    intro u h
    exact ⟨u, rfl, h⟩
  | cons c rest ih =>
    intro u h
    obtain ⟨w, hw, hn⟩ := awardBadge_nodup c.moduleName c.badgeName c.points u h
    obtain ⟨v, hv, hvn⟩ := ih w hn
    refine ⟨v, ?_, hvn⟩
    simp only [awardAll, List.foldl_cons] at hv ⊢
    rw [hw]
    exact hv

/-- C3: the badge list has no duplicates. If the stored badges contain no
repeated name, then after one `awardBadge` call (any module, any badge name,
any point value), and after every sequence of calls, a record is still stored
and its badges contain no repeated name; this holds in particular from the demo
record and from every record with an empty badge list. -/
theorem badges_nodup_preserved :
    (∀ (m b : String) (p : Int) (u : User), u.badges.Nodup →
      ∃ v : User, (awardBadge m b p (some u)).1 = some v ∧ v.badges.Nodup) ∧
    (∀ (calls : List AwardCall) (u : User), u.badges.Nodup →
      ∃ v : User, awardAll calls (some u) = some v ∧ v.badges.Nodup) ∧
    (∀ (today : String) (calls : List AwardCall),
      ∃ v : User, awardAll calls (initDemoUser today) = some v ∧ v.badges.Nodup) ∧
    (∀ (calls : List AwardCall) (u : User), u.badges = [] →
      ∃ v : User, awardAll calls (some u) = some v ∧ v.badges.Nodup) := by
  refine ⟨awardBadge_nodup, fun calls u h => awardAll_nodup calls u h, ?_, ?_⟩
  · intro today calls
    exact awardAll_nodup calls (demoUser today) (by simp [demoUser])
  · intro calls u h
    exact awardAll_nodup calls u (by simp [h])

/-- Witness of `badges_nodup_preserved`: the badge of the demo record granted
again through another module. -/
theorem badges_nodup_preserved_witness :
    (demoUser "11/4/2026").badges.Nodup ∧
    ∃ v : User,
      (awardBadge "saving" "Budget Beginner" 50 (some (demoUser "11/4/2026"))).1 = some v ∧
      v.badges.Nodup :=
  ⟨by decide,
   badges_nodup_preserved.1 "saving" "Budget Beginner" 50 (demoUser "11/4/2026")
     (by decide)⟩

theorem updateLoginStreak_points (host : DateHost) (today : String) (u : User) :
    (updateLoginStreak host today u).points = u.points := rfl

theorem updateLoginStreak_completedModules (host : DateHost) (today : String) (u : User) :
    (updateLoginStreak host today u).completedModules = u.completedModules := rfl

/-- C4, as stated, fails: `awardBadge` with the caller-supplied point value
`-10` on the demo record (50 points, module `saving` not completed) stores 40
points. -/
theorem awardBadge_negative_points_decrease :
    (demoUser "11/4/2026").points = 50 ∧
    (awardBadge "saving" "Smart Saver" (-10) (initDemoUser "11/4/2026")).1.map User.points
      = some 40 := by
  decide

/-- C4, amended: for every stored record, every `awardBadge` call whose
caller-supplied point value is not negative, and every `updateLoginStreak`
call, the stored points afterwards are at least the stored points before, and
are non-negative if they were non-negative. -/
theorem points_never_decrease (m b : String) (p : Int) (u : User)
    (host : DateHost) (today : String) (hp : 0 ≤ p) :
    (∃ v : User, (awardBadge m b p (some u)).1 = some v ∧
      u.points ≤ v.points ∧ (0 ≤ u.points → 0 ≤ v.points)) ∧
    (u.points ≤ (updateLoginStreak host today u).points ∧
      (0 ≤ u.points → 0 ≤ (updateLoginStreak host today u).points)) := by
  constructor
  · rcases awardBadge_some m b p u with h1 | ⟨_, h2⟩
    · exact ⟨u, h1, le_refl _, fun h => h⟩
    · refine ⟨grant m b p u, h2, ?_, ?_⟩
      · show u.points ≤ u.points + p
        omega
      · intro h
        show 0 ≤ u.points + p
        omega
  · rw [updateLoginStreak_points]
    exact ⟨le_refl _, fun h => h⟩

/-- Witness of `points_never_decrease`: 50 points for `saving` on the demo
record. -/
theorem points_never_decrease_witness :
    (∃ v : User,
      (awardBadge "saving" "Smart Saver" 50 (some (demoUser "11/3/2026"))).1 = some v ∧
      (demoUser "11/3/2026").points ≤ v.points ∧
      (0 ≤ (demoUser "11/3/2026").points → 0 ≤ v.points)) ∧
    ((demoUser "11/3/2026").points ≤
        (updateLoginStreak newYorkHost "11/4/2026" (demoUser "11/3/2026")).points ∧
      (0 ≤ (demoUser "11/3/2026").points →
        0 ≤ (updateLoginStreak newYorkHost "11/4/2026" (demoUser "11/3/2026")).points)) :=
  points_never_decrease "saving" "Smart Saver" 50 (demoUser "11/3/2026")
    newYorkHost "11/4/2026" (by decide)

/-- C5: a completed module is never un-marked. If `completedModules[m]` is
`true` in a stored record, then after any `awardBadge` call (for `m` or for
another module, any badge name and point value) a record is still stored with
`completedModules[m]` equal to `true`, and the same holds of the record that
any `updateLoginStreak` call writes. -/
theorem completed_never_unmarked (u : User) (m : String)
    (h : getProp u.completedModules m = .bool true)
    (m2 b : String) (p : Int) (host : DateHost) (today : String) :
    (∃ v : User, (awardBadge m2 b p (some u)).1 = some v ∧
      getProp v.completedModules m = .bool true) ∧
    getProp (updateLoginStreak host today u).completedModules m = .bool true := by
  constructor
  · rcases awardBadge_some m2 b p u with h1 | ⟨_, h2⟩
    · exact ⟨u, h1, h⟩
    · exact ⟨grant m2 b p u, h2, getProp_setTrue_of_true _ _ _ h⟩
  · rw [updateLoginStreak_completedModules]
    exact h

/-- Witness of `completed_never_unmarked`: `budgeting` stays completed in the
demo record when `saving` is awarded and when the streak is updated. -/
theorem completed_never_unmarked_witness :
    (∃ v : User,
      (awardBadge "saving" "Smart Saver" 50 (some (demoUser "11/3/2026"))).1 = some v ∧
      getProp v.completedModules "budgeting" = .bool true) ∧
    getProp (updateLoginStreak newYorkHost "11/4/2026"
      (demoUser "11/3/2026")).completedModules "budgeting" = .bool true :=
  completed_never_unmarked (demoUser "11/3/2026") "budgeting" (by decide)
    "saving" "Smart Saver" 50 newYorkHost "11/4/2026"

/-! ## Login streak -/

/-- The integer formula of `ceilDiv` is the ceiling of the exact quotient. -/
theorem ceilDiv_eq_ceil (a b : Int) (hb : 0 < b) :
    ceilDiv a b = ⌈(a : ℚ) / (b : ℚ)⌉ := by
  unfold ceilDiv
  have h : ((a : ℚ) / (b : ℚ)) = -(((-a : Int) : ℚ) / (b : ℚ)) := by
    push_cast
    ring
  rw [h, Int.ceil_neg]
  congr 1
  obtain ⟨n, rfl⟩ := Int.eq_ofNat_of_zero_le hb.le
  exact (Rat.floor_intCast_div_natCast (-a) n).symm

theorem ceilDiv_zero : ceilDiv 0 msPerDay = 0 := by decide

theorem diffDays_self (host : DateHost) (today : String) (t : Int)
    (h : host.parse today = some t) : diffDays host today today = some 0 := by
  simp [diffDays, h, ceilDiv_zero]

theorem diffDays_invalid_today (host : DateHost) (last today : String)
    (h : host.parse today = none) : diffDays host last today = none := by
  simp [diffDays, h]

/-- The streak written by `updateLoginStreak` when `new Date(today)` is an
Invalid Date is 1, whatever the record. -/
theorem updateLoginStreak_invalid_today (host : DateHost) (today : String) (u : User)
    (h : host.parse today = none) :
    (updateLoginStreak host today u).currentStreak = some 1 := by
  unfold updateLoginStreak
  cases hl : u.lastLoginDate with
  | none => rfl
  | some last =>
    by_cases he : last = ""
    · simp [he]
    · simp [he, diffDays_invalid_today host last today h]

/-- When the two parsed midnights have the same offset from UTC, `diffDays` is
the exact number of calendar days between them. -/
theorem diffDays_of_fixed_offset (host : DateHost) (last today : String) (a b off : Int)
    (ha : host.parse last = some (a * msPerDay + off))
    (hb : host.parse today = some (b * msPerDay + off)) :
    diffDays host last today = some (b - a) := by
  have hx : -(b * msPerDay + off - (a * msPerDay + off)) = (a - b) * msPerDay := by ring
  have hm : msPerDay ≠ 0 := by decide
  simp only [diffDays, ha, hb, ceilDiv, hx, Int.mul_ediv_cancel _ hm]
  congr 1
  ring

/-- C6: `updateLoginStreak` implements the streak state machine. For every
user record whose stored currentStreak is not 0 (the data model has it
positive) and every today: (i) if lastLoginDate is absent the new currentStreak
is 1; (ii) otherwise, with diffDays the computed day difference between today
and lastLoginDate, diffDays = 0 leaves currentStreak unchanged, diffDays = 1
sets currentStreak to (old currentStreak, or 1 if it is missing) + 1, and every
other diffDays sets currentStreak to 1; in all cases lastLoginDate becomes
today and points, badges, completedModules and walletBalance are unchanged. -/
theorem updateLoginStreak_state_machine (host : DateHost) (today : String) (u : User)
    (hstreak : u.currentStreak ≠ some 0) :
    (dateSet u.lastLoginDate = false →
      (updateLoginStreak host today u).currentStreak = some 1) ∧
    (∀ last : String, u.lastLoginDate = some last → last ≠ "" →
      (diffDays host last today = some 0 →
        (updateLoginStreak host today u).currentStreak = u.currentStreak) ∧
      (diffDays host last today = some 1 →
        (updateLoginStreak host today u).currentStreak =
          some (u.currentStreak.getD 1 + 1)) ∧
      (diffDays host last today ≠ some 0 → diffDays host last today ≠ some 1 →
        (updateLoginStreak host today u).currentStreak = some 1)) ∧
    (updateLoginStreak host today u).lastLoginDate = some today ∧
    (updateLoginStreak host today u).points = u.points ∧
    (updateLoginStreak host today u).badges = u.badges ∧
    (updateLoginStreak host today u).completedModules = u.completedModules ∧
    (updateLoginStreak host today u).walletBalance = u.walletBalance := by
  have hor : streakOrOne u.currentStreak = u.currentStreak.getD 1 := by
    cases hs : u.currentStreak with
    | none => rfl
    | some n =>
      have hn : n ≠ 0 := by
        intro e
        rw [hs, e] at hstreak
        exact hstreak rfl
      simp [streakOrOne, hn]
  refine ⟨?_, ?_, rfl, rfl, rfl, rfl, rfl⟩
  · intro h
    unfold updateLoginStreak
    cases hl : u.lastLoginDate with
    | none => rfl
    | some last =>
      rw [hl] at h
      have he : last = "" := by simpa [dateSet] using h
      simp [he]
  · intro last hl hne
    refine ⟨?_, ?_, ?_⟩
    · intro hd
      simp [updateLoginStreak, hl, hne, hd]
    · intro hd
      simp [updateLoginStreak, hl, hne, hd, hor]
    · intro h0 h1
      simp only [updateLoginStreak, hl, hne, if_false]

/-- Witness of `updateLoginStreak_state_machine`: the demo record of 3 November
used on 4 November gets the streak 1 + 1. -/
theorem updateLoginStreak_state_machine_witness :
    (updateLoginStreak newYorkHost "11/4/2026" (demoUser "11/3/2026")).currentStreak
      = some ((demoUser "11/3/2026").currentStreak.getD 1 + 1) :=
  ((updateLoginStreak_state_machine newYorkHost "11/4/2026"
    (demoUser "11/3/2026") (by decide)).2.1 "11/3/2026" rfl (by decide)).2.1 (by decide)

/-- A record whose `lastLoginDate` is already `today` is a fixed point of
`updateLoginStreak` when `today` parses to a valid date. -/
theorem updateLoginStreak_fixed_of_valid (host : DateHost) (today : String) (v : User)
    (t : Int) (hday : today ≠ "") (hp : host.parse today = some t)
    (hv : v.lastLoginDate = some today) : updateLoginStreak host today v = v := by
  have hd : diffDays host today today = some 0 := diffDays_self host today t hp
  cases v with
  | mk un av pts bd wb cs ld cm =>
    simp only at hv
    subst hv
    simp [updateLoginStreak, hday, hd]

/-- A record whose `lastLoginDate` is already `today` and whose streak is 1 is a
fixed point of `updateLoginStreak` when `today` is an Invalid Date. -/
theorem updateLoginStreak_fixed_of_invalid (host : DateHost) (today : String) (v : User)
    (hp : host.parse today = none) (hv : v.lastLoginDate = some today)
    (hc : v.currentStreak = some 1) : updateLoginStreak host today v = v := by
  have h1 := updateLoginStreak_invalid_today host today v hp
  cases v with
  | mk un av pts bd wb cs ld cm =>
    simp only at hv hc
    subst hv hc
    simp only [updateLoginStreak] at h1 ⊢
    rw [h1]

/-- C7: same-day re-entry is idempotent. For every host, every record (with
or without login history) and every calendar day, given as the non-empty date
string `today`, calling `updateLoginStreak` twice with that `today` yields
exactly the record that one call yields. -/
theorem updateLoginStreak_same_day_idempotent (host : DateHost) (today : String)
    (u : User) (hday : today ≠ "") :
    updateLoginStreak host today (updateLoginStreak host today u) =
      updateLoginStreak host today u := by
  cases hp : host.parse today with
  | some t =>
    exact updateLoginStreak_fixed_of_valid host today _ t hday hp rfl
  | none =>
    exact updateLoginStreak_fixed_of_invalid host today _ hp rfl
      (updateLoginStreak_invalid_today host today u hp)

/-- Witness of `updateLoginStreak_same_day_idempotent`: the demo record of
3 November, used twice on 4 November. -/
theorem updateLoginStreak_same_day_idempotent_witness :
    updateLoginStreak newYorkHost "11/4/2026"
        (updateLoginStreak newYorkHost "11/4/2026" (demoUser "11/3/2026")) =
      updateLoginStreak newYorkHost "11/4/2026" (demoUser "11/3/2026") :=
  updateLoginStreak_same_day_idempotent newYorkHost "11/4/2026" (demoUser "11/3/2026")
    (by decide)

/-- The streak written by `updateLoginStreak` is an integer that is at least 1
whenever the old record satisfies the streak invariant. -/
theorem updateLoginStreak_positive (host : DateHost) (today : String) (u : User)
    (h : StreakInv u) : StreakPositive (updateLoginStreak host today u) := by
  unfold StreakPositive
  cases hl : u.lastLoginDate with
  | none => exact ⟨1, by simp [updateLoginStreak, hl], le_refl _⟩
  | some last =>
    by_cases he : last = ""
    · exact ⟨1, by simp [updateLoginStreak, hl, he], le_refl _⟩
    · obtain ⟨n, hn, hpos⟩ := h (by simp [dateSet, hl, he])
      have hn0 : n ≠ 0 := by omega
      by_cases h0 : diffDays host last today = some 0
      · exact ⟨n, by simp [updateLoginStreak, hl, he, h0, hn], hpos⟩
      · by_cases h1 : diffDays host last today = some 1
        · exact ⟨n + 1, by simp [updateLoginStreak, hl, he, h1, hn, streakOrOne, hn0],
            by omega⟩
        · exact ⟨1, by simp only [updateLoginStreak, hl, he, if_false], le_refl _⟩

/-- C8: the streak invariant "if lastLoginDate is set then currentStreak is an
integer >= 1" holds of the record that `initDemoUser` stores, is established by
`updateLoginStreak` from every record whose lastLoginDate is absent, and is
preserved by every `updateLoginStreak` call (for every today) and by every
`awardBadge` call; after `updateLoginStreak` the streak is in fact an integer
>= 1 outright. -/
theorem streak_invariant :
    (∀ today : String, ∃ v : User, initDemoUser today = some v ∧ StreakInv v) ∧
    (∀ (host : DateHost) (today : String) (u : User), dateSet u.lastLoginDate = false →
      StreakInv (updateLoginStreak host today u) ∧
      StreakPositive (updateLoginStreak host today u)) ∧
    (∀ (host : DateHost) (today : String) (u : User), StreakInv u →
      StreakInv (updateLoginStreak host today u) ∧
      StreakPositive (updateLoginStreak host today u)) ∧
    (∀ (m b : String) (p : Int) (u : User), StreakInv u →
      ∃ v : User, (awardBadge m b p (some u)).1 = some v ∧ StreakInv v) := by
  refine ⟨?_, ?_, ?_, ?_⟩
  · intro today
    exact ⟨demoUser today, rfl, fun _ => ⟨1, rfl, le_refl _⟩⟩
  · intro host today u habsent
    have hinv : StreakInv u := by
      intro hset
      rw [habsent] at hset
      exact absurd hset (by decide)
    exact ⟨fun _ => updateLoginStreak_positive host today u hinv,
      updateLoginStreak_positive host today u hinv⟩
  · intro host today u hinv
    exact ⟨fun _ => updateLoginStreak_positive host today u hinv,
      updateLoginStreak_positive host today u hinv⟩
  · intro m b p u hinv
    rcases awardBadge_some m b p u with h1 | ⟨_, h2⟩
    · exact ⟨u, h1, hinv⟩
    · exact ⟨grant m b p u, h2, hinv⟩

/-- Witness of `streak_invariant`: the demo record of 3 November satisfies the
invariant, and so does the record written for it on 4 November. -/
theorem streak_invariant_witness :
    StreakInv (demoUser "11/3/2026") ∧
    StreakInv (updateLoginStreak newYorkHost "11/4/2026" (demoUser "11/3/2026")) ∧
    StreakPositive (updateLoginStreak newYorkHost "11/4/2026" (demoUser "11/3/2026")) :=
  ⟨fun _ => ⟨1, rfl, le_refl _⟩,
   streak_invariant.2.2.1 newYorkHost "11/4/2026" (demoUser "11/3/2026")
     (fun _ => ⟨1, rfl, le_refl _⟩)⟩

/-- C9 at the failing input: on a host in the zone America/New_York, with
`lastLoginDate` 1 November 2026 and today 2 November 2026 (the next calendar
day, 25 hours later because daylight saving time ends), the code computes
`diffDays = 2` and resets a streak of 5 to 1 instead of raising it to 6. -/
theorem diffDays_after_clock_change :
    diffDays newYorkHost "11/1/2026" "11/2/2026" = some 2 ∧
    (updateLoginStreak newYorkHost "11/2/2026"
      { demoUser "11/1/2026" with currentStreak := some 5 }).currentStreak = some 1 ∧
    diffDays newYorkHost "10/31/2026" "11/1/2026" = some 1 ∧
    (updateLoginStreak newYorkHost "11/1/2026"
      { demoUser "10/31/2026" with currentStreak := some 5 }).currentStreak = some 6 := by
  decide

/-! ## Milestones -/

/-- C10: `getNextMilestone` returns the least milestone above the current
points. For `p < 300` the result has `reached = false`, its milestone is the
smallest element of the sequence that is strictly greater than `p`, and
`pointsNeeded = milestone - p`, which is positive and at most 50 when `p >= 0`;
for `p >= 300` the result is milestone 300, pointsNeeded 0, reached true. -/
theorem getNextMilestone_least (p : Int) :
    (p < 300 →
      (getNextMilestone p).reached = false ∧
      (getNextMilestone p).milestone ∈ milestones ∧
      p < (getNextMilestone p).milestone ∧
      (∀ m ∈ milestones, p < m → (getNextMilestone p).milestone ≤ m) ∧
      (getNextMilestone p).pointsNeeded = (getNextMilestone p).milestone - p ∧
      0 < (getNextMilestone p).pointsNeeded ∧
      (0 ≤ p → (getNextMilestone p).pointsNeeded ≤ 50)) ∧
    (300 ≤ p →
      getNextMilestone p = { milestone := 300, pointsNeeded := 0, reached := true }) := by
  constructor
  · intro h
    by_cases h1 : p < 50
    · have e : getNextMilestone p = ⟨50, 50 - p, false⟩ := by
        simp [getNextMilestone, milestones, List.find?, h1]
      rw [e]
      simp [milestones]
      omega
    · by_cases h2 : p < 100
      · have e : getNextMilestone p = ⟨100, 100 - p, false⟩ := by
          simp [getNextMilestone, milestones, List.find?, h1, h2]
        rw [e]
        simp [milestones]
        omega
      · by_cases h3 : p < 150
        · have e : getNextMilestone p = ⟨150, 150 - p, false⟩ := by
            simp [getNextMilestone, milestones, List.find?, h1, h2, h3]
          rw [e]
          simp [milestones]
          omega
        · by_cases h4 : p < 200
          · have e : getNextMilestone p = ⟨200, 200 - p, false⟩ := by
              simp [getNextMilestone, milestones, List.find?, h1, h2, h3, h4]
            rw [e]
            simp [milestones]
            omega
          · by_cases h5 : p < 250
            · have e : getNextMilestone p = ⟨250, 250 - p, false⟩ := by
                simp [getNextMilestone, milestones, List.find?, h1, h2, h3, h4, h5]
              rw [e]
              simp [milestones]
              omega
            · have e : getNextMilestone p = ⟨300, 300 - p, false⟩ := by
                simp [getNextMilestone, milestones, List.find?, h1, h2, h3, h4, h5, h]
              rw [e]
              simp [milestones]
              omega
  · intro h
    have h1 : ¬ p < 50 := by omega
    have h2 : ¬ p < 100 := by omega
    have h3 : ¬ p < 150 := by omega
    have h4 : ¬ p < 200 := by omega
    have h5 : ¬ p < 250 := by omega
    have h6 : ¬ p < 300 := by omega
    simp [getNextMilestone, milestones, List.find?, h1, h2, h3, h4, h5, h6]

/-- Witness of `getNextMilestone_least`: 120 points, next milestone 150. -/
theorem getNextMilestone_least_witness :
    (getNextMilestone 120).reached = false ∧
    (getNextMilestone 120).milestone ∈ milestones ∧
    (120 : Int) < (getNextMilestone 120).milestone ∧
    (∀ m ∈ milestones, (120 : Int) < m → (getNextMilestone 120).milestone ≤ m) ∧
    (getNextMilestone 120).pointsNeeded = (getNextMilestone 120).milestone - 120 ∧
    0 < (getNextMilestone 120).pointsNeeded ∧
    ((0 : Int) ≤ 120 → (getNextMilestone 120).pointsNeeded ≤ 50) :=
  (getNextMilestone_least 120).1 (by decide)

/-! ## JavaScript numbers -/

set_option maxRecDepth 100000

theorem log2Fuel_pow_le (fuel : Nat) : ∀ n : Nat, 1 ≤ n → 2 ^ log2Fuel fuel n ≤ n := by
  induction fuel with
  | zero =>
    intro n h
    simpa [log2Fuel] using h
  | succ f ih =>
    intro n h
    unfold log2Fuel
    split
    · simpa using h
    · rename_i h2
      have h3 : 1 ≤ n / 2 := by omega
      have h4 := ih (n / 2) h3
      rw [pow_succ]
      omega

theorem overflowUnits_pos : 0 < overflowUnits := by
  unfold overflowUnits
  positivity

theorem roundHalfEven_ge (n d : Nat) : n / d ≤ roundHalfEven n d := by
  unfold roundHalfEven
  simp only
  split
  · exact le_refl _
  · split
    · omega
    · split <;> omega

theorem roundToDouble_zero : roundToDouble 0 1 = 0 := by
  simp [roundToDouble, roundHalfEven]

theorem roundToDouble_pos (n : Nat) (h : 0 < n) : 0 < roundToDouble n 1 := by
  unfold roundToDouble
  simp only [Nat.div_one, one_mul]
  split
  · exact lt_of_lt_of_le h (by simpa using roundHalfEven_ge n 1)
  · have h1 : 2 ^ log2Fuel n n ≤ n := log2Fuel_pow_le n n h
    have h2 : 2 ^ (log2Fuel n n - 52) ≤ 2 ^ log2Fuel n n :=
      Nat.pow_le_pow_right (by decide) (Nat.sub_le _ _)
    have h3 : 0 < 2 ^ (log2Fuel n n - 52) := Nat.pow_pos (by decide)
    have h4 : 1 ≤ n / 2 ^ (log2Fuel n n - 52) :=
      (Nat.one_le_div_iff h3).mpr (le_trans h2 h1)
    have h5 := roundHalfEven_ge n (2 ^ (log2Fuel n n - 52))
    exact Nat.mul_pos (by omega) h3

/-- The sign of a rounded value is the sign of the exact value: rounding
never reaches zero from a nonzero multiple of `2 ^ (-1074)`. -/
theorem ofUnits_sign (k : Int) :
    (JSNumber.ofUnits k).lt .zero = decide (k < 0) ∧
    (JSNumber.ofUnits k).le .zero = decide (k ≤ 0) ∧
    JSNumber.zero.lt (JSNumber.ofUnits k) = decide (0 < k) ∧
    JSNumber.zero.le (JSNumber.ofUnits k) = decide (0 ≤ k) ∧
    JSNumber.ofUnits k ≠ .nan := by
  rcases lt_trichotomy k 0 with h | h | h
  · have hm : 0 < roundToDouble k.natAbs 1 := roundToDouble_pos _ (by omega)
    have hd : decide (k < 0) = true := by simpa using h
    unfold JSNumber.ofUnits JSNumber.ofQuotient
    simp only [hd, if_true]
    split
    · have h1 : ¬ 0 < k := by omega
      have h2 : ¬ 0 ≤ k := by omega
      have h3 : k ≤ 0 := by omega
      simp [JSNumber.lt, JSNumber.le, JSNumber.zero, h1, h2, h3]
    · have h1 : ¬ 0 < k := by omega
      have h2 : ¬ 0 ≤ k := by omega
      have h3 : k ≤ 0 := by omega
      simp [JSNumber.lt, JSNumber.le, JSNumber.zero, h1, h2, h3]
      omega
  · subst h
    have hov : overflowUnits ≠ 0 := overflowUnits_pos.ne'
    have : JSNumber.ofUnits 0 = .finite 0 := by
      simp [JSNumber.ofUnits, JSNumber.ofQuotient, roundToDouble_zero, hov]
    rw [this]
    decide
  · have hm : 0 < roundToDouble k.natAbs 1 := roundToDouble_pos _ (by omega)
    have hd : decide (k < 0) = false := by simpa using le_of_lt h
    unfold JSNumber.ofUnits JSNumber.ofQuotient
    simp only [hd]
    split
    · have h1 : ¬ k < 0 := by omega
      have h2 : ¬ k ≤ 0 := by omega
      have h3 : 0 ≤ k := by omega
      simp [JSNumber.lt, JSNumber.le, JSNumber.zero, h1, h2, h3, h]
    · have h1 : ¬ k < 0 := by omega
      have h2 : ¬ k ≤ 0 := by omega
      have h3 : 0 ≤ k := by omega
      simp [JSNumber.lt, JSNumber.le, JSNumber.zero, h1, h2, h3, h]
      omega

theorem isValidPositiveNumber_eq (x : JSNumber) :
    isValidPositiveNumber x = x.gt .zero := by
  cases x <;> rfl

theorem isValidNonNegativeNumber_eq (x : JSNumber) :
    isValidNonNegativeNumber x = x.ge .zero := by
  cases x <;> rfl

theorem JSNumber.gt_zero_false_of_le (x : JSNumber) (h : x.le .zero = true) :
    x.gt .zero = false := by
  cases x with
  | nan => rfl
  | posInf => exact absurd h (by decide)
  | negInf => rfl
  | finite k =>
    have h1 : k ≤ 0 := by simpa [JSNumber.le, JSNumber.zero] using h
    have h2 : ¬ 0 < k := by omega
    simp [JSNumber.gt, JSNumber.lt, JSNumber.zero, h2]

theorem JSNumber.le_zero_of_gt_false (x : JSNumber) (hx : x ≠ .nan)
    (h : x.gt .zero = false) : x.le .zero = true := by
  cases x with
  | nan => exact absurd rfl hx
  | posInf => exact absurd h (by decide)
  | negInf => rfl
  | finite k =>
    have h1 : ¬ 0 < k := by simpa [JSNumber.gt, JSNumber.lt, JSNumber.zero] using h
    have h2 : k ≤ 0 := by omega
    simp [JSNumber.le, JSNumber.zero, h2]

theorem JSNumber.ge_zero_false_of_lt (x : JSNumber) (h : x.lt .zero = true) :
    x.ge .zero = false := by
  cases x with
  | nan => rfl
  | posInf => exact absurd h (by decide)
  | negInf => rfl
  | finite k =>
    have h1 : k < 0 := by simpa [JSNumber.lt, JSNumber.zero] using h
    have h2 : ¬ 0 ≤ k := by omega
    simp [JSNumber.ge, JSNumber.le, JSNumber.zero, h2]

theorem JSNumber.lt_zero_of_ge_false (x : JSNumber) (hx : x ≠ .nan)
    (h : x.ge .zero = false) : x.lt .zero = true := by
  cases x with
  | nan => exact absurd rfl hx
  | posInf => exact absurd h (by decide)
  | negInf => rfl
  | finite k =>
    have h1 : ¬ 0 ≤ k := by simpa [JSNumber.ge, JSNumber.le, JSNumber.zero] using h
    have h2 : k < 0 := by omega
    simp [JSNumber.lt, JSNumber.zero, h2]

theorem sub_finite (a b : Int) :
    (JSNumber.finite a).sub (.finite b) = JSNumber.ofUnits (a - b) := rfl

/-- For finite numbers the sign of the computed difference is the sign of the
exact difference. -/
theorem sub_finite_sign (a b : Int) :
    ((JSNumber.finite a).sub (.finite b)).lt .zero = decide (a < b) ∧
    ((JSNumber.finite a).sub (.finite b)).le .zero = decide (a ≤ b) ∧
    ((JSNumber.finite a).sub (.finite b)).gt .zero = decide (b < a) ∧
    ((JSNumber.finite a).sub (.finite b)).ge .zero = decide (b ≤ a) ∧
    (JSNumber.finite a).sub (.finite b) ≠ .nan := by
  obtain ⟨h1, h2, h3, h4, h5⟩ := ofUnits_sign (a - b)
  rw [sub_finite]
  refine ⟨?_, ?_, ?_, ?_, h5⟩
  · rw [h1]
    exact decide_eq_decide.mpr (by omega)
  · rw [h2]
    exact decide_eq_decide.mpr (by omega)
  · show JSNumber.zero.lt (JSNumber.ofUnits (a - b)) = _
    rw [h3]
    exact decide_eq_decide.mpr (by omega)
  · show JSNumber.zero.le (JSNumber.ofUnits (a - b)) = _
    rw [h4]
    exact decide_eq_decide.mpr (by omega)

/-- With neither operand NaN and not both of them `Infinity`, the comparison
`x >= y` agrees with the sign of the computed difference `x - y`. -/
theorem ge_eq_sub_ge_zero (x y : JSNumber) (hx : x ≠ .nan) (hy : y ≠ .nan)
    (hinf : ¬ (x = .posInf ∧ y = .posInf))
    (hneg : ¬ (x = .negInf ∧ y = .negInf)) :
    x.ge y = (x.sub y).ge .zero ∧ x.lt y = (x.sub y).lt .zero ∧ x.sub y ≠ .nan := by
  cases x with
  | nan => exact absurd rfl hx
  | posInf =>
    cases y with
    | nan => exact absurd rfl hy
    | posInf => exact absurd ⟨rfl, rfl⟩ hinf
    | negInf => decide
    | finite b => exact ⟨rfl, rfl, by simp [JSNumber.sub]⟩
  | negInf =>
    cases y with
    | nan => exact absurd rfl hy
    | posInf => decide
    | negInf => exact absurd ⟨rfl, rfl⟩ hneg
    | finite b => exact ⟨rfl, rfl, by simp [JSNumber.sub]⟩
  | finite a =>
    cases y with
    | nan => exact absurd rfl hy
    | posInf => exact ⟨rfl, rfl, by simp [JSNumber.sub]⟩
    | negInf => exact ⟨rfl, rfl, by simp [JSNumber.sub]⟩
    | finite b =>
      obtain ⟨h1, _, _, h4, h5⟩ := sub_finite_sign a b
      refine ⟨?_, ?_, h5⟩
      · rw [h4]
        rfl
      · rw [h1]
        rfl

theorem JSNumber.gt_zero_iff_not_le (x : JSNumber) (hx : x ≠ .nan) :
    x.gt .zero = true ↔ x.le .zero = false := by
  constructor
  · intro h
    cases hle : x.le .zero with
    | false => rfl
    | true =>
      rw [JSNumber.gt_zero_false_of_le x hle] at h
      cases h
  · intro h
    cases hgt : x.gt .zero with
    | true => rfl
    | false =>
      rw [JSNumber.le_zero_of_gt_false x hx hgt] at h
      cases h

theorem JSNumber.abs_ge_zero (x : JSNumber) (hx : x ≠ .nan) : x.abs.ge .zero = true := by
  cases x with
  | nan => exact absurd rfl hx
  | posInf => rfl
  | negInf => rfl
  | finite k =>
    have h : (0 : Int) ≤ |k| := abs_nonneg k
    simp [JSNumber.abs, JSNumber.ge, JSNumber.le, JSNumber.zero, h]

theorem JSNumber.ne_nan_of_gt (x y : JSNumber) (h : x.gt y = true) : x ≠ .nan := by
  intro e
  subst e
  cases y <;> cases h

theorem JSNumber.ne_nan_of_ge (x y : JSNumber) (h : x.ge y = true) : x ≠ .nan := by
  intro e
  subst e
  cases y <;> cases h

theorem JSNumber.ne_negInf_of_gt_zero (x : JSNumber) (h : x.gt .zero = true) :
    x ≠ .negInf := by
  intro e
  subst e
  cases h

theorem JSNumber.ne_negInf_of_ge_zero (x : JSNumber) (h : x.ge .zero = true) :
    x ≠ .negInf := by
  intro e
  subst e
  cases h

theorem validateBudget_of_income (income expenses : JSNumber)
    (h : income.gt .zero = false) :
    validateBudget income expenses = .invalid "Income must be a positive number" := by
  simp [validateBudget, isValidPositiveNumber_eq, h]

theorem validateBudget_of_expenses (income expenses : JSNumber)
    (h1 : income.gt .zero = true) (h2 : expenses.ge .zero = false) :
    validateBudget income expenses = .invalid "Expenses cannot be negative" := by
  simp [validateBudget, isValidPositiveNumber_eq, isValidNonNegativeNumber_eq, h1, h2]

theorem validateBudget_of_valid (income expenses : JSNumber)
    (h1 : income.gt .zero = true) (h2 : expenses.ge .zero = true) :
    validateBudget income expenses =
      .valid (income.ge expenses) (income.sub expenses) := by
  simp [validateBudget, isValidPositiveNumber_eq, isValidNonNegativeNumber_eq, h1, h2]

/-! ## Validation helpers -/

/-- C13, as stated, fails. With the income NaN and the expenses 0 the result is
invalid although neither income <= 0 nor expenses < 0 holds; with both
arguments `Infinity` the result is valid and balanced while the surplus is NaN,
for which surplus >= 0 is false. -/
theorem validateBudget_nan_and_infinity :
    validateBudget .nan .zero = .invalid "Income must be a positive number" ∧
    JSNumber.nan.le .zero = false ∧
    JSNumber.zero.lt .zero = false ∧
    validateBudget .posInf .posInf = .valid true .nan ∧
    JSNumber.nan.ge .zero = false := by
  decide

/-- C13, amended: for all numbers income and expenses that are not NaN and not
both `Infinity`, the result of `validateBudget` is invalid exactly when
income <= 0 or expenses < 0; the income message is returned whenever
income <= 0, whatever the expenses; otherwise the result is valid with
surplus = income - expenses (not clamped) and isBalanced true exactly when
income >= expenses, which is exactly when surplus >= 0. -/
theorem validateBudget_characterisation (income expenses : JSNumber)
    (hincome : income ≠ .nan) (hexpenses : expenses ≠ .nan)
    (hinf : ¬ (income = .posInf ∧ expenses = .posInf)) :
    ((∃ msg : String, validateBudget income expenses = .invalid msg) ↔
      (income.le .zero = true ∨ expenses.lt .zero = true)) ∧
    (income.le .zero = true →
      validateBudget income expenses = .invalid "Income must be a positive number") ∧
    (income.gt .zero = true → expenses.lt .zero = true →
      validateBudget income expenses = .invalid "Expenses cannot be negative") ∧
    (income.gt .zero = true → expenses.ge .zero = true →
      validateBudget income expenses =
        .valid (income.ge expenses) (income.sub expenses) ∧
      income.ge expenses = (income.sub expenses).ge .zero) := by
  have hA : income.le .zero = true →
      validateBudget income expenses = .invalid "Income must be a positive number" :=
    fun h => validateBudget_of_income income expenses (JSNumber.gt_zero_false_of_le _ h)
  have hB : income.gt .zero = true → expenses.lt .zero = true →
      validateBudget income expenses = .invalid "Expenses cannot be negative" :=
    fun h1 h2 => validateBudget_of_expenses income expenses h1
      (JSNumber.ge_zero_false_of_lt _ h2)
  refine ⟨?_, hA, hB, ?_⟩
  · constructor
    · rintro ⟨msg, h⟩
      by_contra hn
      push_neg at hn
      have h1 : income.gt .zero = true := by
        cases hgt : income.gt .zero with
        | true => rfl
        | false => exact absurd (JSNumber.le_zero_of_gt_false _ hincome hgt) hn.1
      have h2 : expenses.ge .zero = true := by
        cases hge : expenses.ge .zero with
        | true => rfl
        | false => exact absurd (JSNumber.lt_zero_of_ge_false _ hexpenses hge) hn.2
      rw [validateBudget_of_valid income expenses h1 h2] at h
      cases h
    · rintro (h | h)
      · exact ⟨_, hA h⟩
      · cases hgt : income.gt .zero with
        | true => exact ⟨_, hB hgt h⟩
        | false => exact ⟨_, validateBudget_of_income income expenses hgt⟩
  · intro h1 h2
    refine ⟨validateBudget_of_valid income expenses h1 h2, ?_⟩
    have hneg : ¬ (income = .negInf ∧ expenses = .negInf) :=
      fun h => JSNumber.ne_negInf_of_gt_zero income h1 h.1
    exact (ge_eq_sub_ge_zero income expenses hincome hexpenses hinf hneg).1

/-- Witness of `validateBudget_characterisation`: income 1000 and expenses 1200
are valid, not balanced, with the negative surplus 1000 - 1200. -/
theorem validateBudget_characterisation_witness :
    validateBudget (.ofNat 1000) (.ofNat 1200) =
        .valid ((JSNumber.ofNat 1000).ge (.ofNat 1200))
          ((JSNumber.ofNat 1000).sub (.ofNat 1200)) ∧
      (JSNumber.ofNat 1000).ge (.ofNat 1200) =
        ((JSNumber.ofNat 1000).sub (.ofNat 1200)).ge .zero :=
  (validateBudget_characterisation (.ofNat 1000) (.ofNat 1200)
    (by decide!) (by decide!) (by decide!)).2.2.2 (by decide!) (by decide!)

theorem validateExpense_of_valid (amount currentBalance : JSNumber)
    (h : amount.gt .zero = true) :
    validateExpense amount currentBalance =
      .valid ((currentBalance.sub amount).lt .zero) (currentBalance.sub amount)
        (currentBalance.sub amount).abs := by
  simp [validateExpense, isValidPositiveNumber_eq, h]

theorem validateExpense_of_invalid (amount currentBalance : JSNumber)
    (h : amount.gt .zero = false) :
    validateExpense amount currentBalance = .invalid "Amount must be positive" := by
  simp [validateExpense, isValidPositiveNumber_eq, h]

/-- C12, as stated, fails. With the amount 100 and the balance NaN the result
is valid and its remainingAmount is NaN, for which remainingAmount >= 0 is
false; the same holds when amount and balance are both `Infinity`. -/
theorem validateExpense_nan_balance :
    validateExpense (.ofNat 100) .nan = .valid false .nan .nan ∧
    validateExpense .posInf .posInf = .valid false .nan .nan ∧
    JSNumber.nan.ge .zero = false := by
  decide!

/-- C12, amended: for every amount > 0 and every current balance that is not
NaN, the two not both `Infinity`, the result of `validateExpense` is valid with
newBalance = currentBalance - amount, willOverspend true exactly when
newBalance < 0, that is when amount > currentBalance, and
remainingAmount = |newBalance| >= 0; the result is invalid exactly when the
amount is not a positive number. Overspending is never blocked. -/
theorem validateExpense_flags_overspending (amount currentBalance : JSNumber)
    (hbalance : currentBalance ≠ .nan)
    (hinf : ¬ (amount = .posInf ∧ currentBalance = .posInf)) :
    (amount.gt .zero = true →
      validateExpense amount currentBalance =
        .valid ((currentBalance.sub amount).lt .zero) (currentBalance.sub amount)
          (currentBalance.sub amount).abs ∧
      (currentBalance.sub amount).lt .zero = amount.gt currentBalance ∧
      (currentBalance.sub amount).abs.ge .zero = true) ∧
    ((∃ msg : String, validateExpense amount currentBalance = .invalid msg) ↔
      amount.gt .zero = false) := by
  constructor
  · intro h
    have hamount : amount ≠ .nan := JSNumber.ne_nan_of_gt amount .zero h
    have hinf2 : ¬ (currentBalance = .posInf ∧ amount = .posInf) :=
      fun e => hinf ⟨e.2, e.1⟩
    have hneg : ¬ (currentBalance = .negInf ∧ amount = .negInf) :=
      fun e => JSNumber.ne_negInf_of_gt_zero amount h e.2
    obtain ⟨_, hlt, hnan⟩ :=
      ge_eq_sub_ge_zero currentBalance amount hbalance hamount hinf2 hneg
    exact ⟨validateExpense_of_valid amount currentBalance h, hlt.symm,
      JSNumber.abs_ge_zero _ hnan⟩
  · constructor
    · rintro ⟨msg, h⟩
      cases hgt : amount.gt .zero with
      | false => rfl
      | true =>
        rw [validateExpense_of_valid amount currentBalance hgt] at h
        cases h
    · intro h
      exact ⟨_, validateExpense_of_invalid amount currentBalance h⟩

/-- Witness of `validateExpense_flags_overspending`: the amount 100 against the
balance 50. -/
theorem validateExpense_flags_overspending_witness :
    validateExpense (.ofNat 100) (.ofNat 50) =
        .valid (((JSNumber.ofNat 50).sub (.ofNat 100)).lt .zero)
          ((JSNumber.ofNat 50).sub (.ofNat 100))
          ((JSNumber.ofNat 50).sub (.ofNat 100)).abs ∧
      ((JSNumber.ofNat 50).sub (.ofNat 100)).lt .zero =
        (JSNumber.ofNat 100).gt (.ofNat 50) ∧
      ((JSNumber.ofNat 50).sub (.ofNat 100)).abs.ge .zero = true :=
  (validateExpense_flags_overspending (.ofNat 100) (.ofNat 50)
    (by decide!) (by decide!)).1 (by decide!)

/-- The example of the specification in the model: `validateExpense(100, 50)`
returns willOverspend true, newBalance -50 and remainingAmount 50. -/
theorem validateExpense_example :
    validateExpense (.ofNat 100) (.ofNat 50) =
      .valid true (.ofDecimal (-50) 0) (.ofNat 50) := by
  decide!

theorem validateSavingGoal_of_valid (income expenses goal : JSNumber)
    (h1 : income.gt .zero = true) (h2 : goal.gt .zero = true)
    (h3 : expenses.ge .zero = true) (h4 : (income.sub expenses).le .zero = false) :
    validateSavingGoal income expenses goal =
      .valid (goal.le ((income.sub expenses).mul (.ofNat 12)))
        ((income.sub expenses).mul (.ofNat 12)) (goal.div (.ofNat 12)) := by
  simp [validateSavingGoal, isValidPositiveNumber_eq, isValidNonNegativeNumber_eq,
    h1, h2, h3, h4]

theorem validateSavingGoal_of_surplus (income expenses goal : JSNumber)
    (h1 : income.gt .zero = true) (h2 : goal.gt .zero = true)
    (h3 : expenses.ge .zero = true) (h4 : (income.sub expenses).le .zero = true) :
    validateSavingGoal income expenses goal =
      .invalid "Monthly surplus is zero or negative. Balance your budget first." := by
  simp [validateSavingGoal, isValidPositiveNumber_eq, isValidNonNegativeNumber_eq,
    h1, h2, h3, h4]

theorem validateSavingGoal_invalid_of_field (income expenses goal : JSNumber)
    (h : income.gt .zero = false ∨ goal.gt .zero = false ∨ expenses.ge .zero = false) :
    ∃ msg : String, validateSavingGoal income expenses goal = .invalid msg := by
  unfold validateSavingGoal
  simp only [isValidPositiveNumber_eq, isValidNonNegativeNumber_eq]
  cases h1 : income.gt .zero <;> cases h2 : goal.gt .zero <;>
    cases h3 : expenses.ge .zero <;> simp_all

/-- C11, as stated, fails. With income and expenses both `Infinity` and the
goal 5000, the computed surplus is NaN, so income - expenses > 0 is false, yet
the result is valid, with maxAnnualSavings NaN. -/
theorem validateSavingGoal_infinite_income :
    validateSavingGoal .posInf .posInf (.ofNat 5000) =
      .valid false .nan ((JSNumber.ofNat 5000).div (.ofNat 12)) ∧
    (JSNumber.posInf.sub .posInf).gt .zero = false := by
  decide!

/-- C11, amended: for all numbers income, expenses and goal, income and
expenses not both `Infinity`, the result of `validateSavingGoal` is valid
exactly when income > 0, goal > 0, expenses >= 0 and income - expenses > 0;
with the three field conditions met and income - expenses <= 0 it is invalid
with the surplus message, which differs from both per-field messages; and
when valid, maxAnnualSavings = (income - expenses) * 12, isRealistic is
goal <= maxAnnualSavings, and monthlyRequired = goal / 12 in either case. The
operations are those of the code, on doubles; for finite income and expenses
the computed income - expenses is above 0 exactly when expenses < income. -/
theorem validateSavingGoal_characterisation (income expenses goal : JSNumber)
    (hinf : ¬ (income = .posInf ∧ expenses = .posInf)) :
    ((∃ (r : Bool) (m q : JSNumber),
        validateSavingGoal income expenses goal = .valid r m q) ↔
      (income.gt .zero = true ∧ goal.gt .zero = true ∧ expenses.ge .zero = true ∧
        (income.sub expenses).gt .zero = true)) ∧
    (income.gt .zero = true → goal.gt .zero = true → expenses.ge .zero = true →
      (income.sub expenses).le .zero = true →
      validateSavingGoal income expenses goal =
        .invalid "Monthly surplus is zero or negative. Balance your budget first.") ∧
    ("Monthly surplus is zero or negative. Balance your budget first." ≠
        "Income and goal must be positive" ∧
      "Monthly surplus is zero or negative. Balance your budget first." ≠
        "Expenses cannot be negative") ∧
    (income.gt .zero = true → goal.gt .zero = true → expenses.ge .zero = true →
      (income.sub expenses).gt .zero = true →
      validateSavingGoal income expenses goal =
        .valid (goal.le ((income.sub expenses).mul (.ofNat 12)))
          ((income.sub expenses).mul (.ofNat 12)) (goal.div (.ofNat 12))) ∧
    (∀ a b : Int, income = .finite a → expenses = .finite b →
      (income.sub expenses).gt .zero = decide (b < a)) := by
  have hsurplus : income.gt .zero = true → expenses.ge .zero = true →
      income.sub expenses ≠ .nan := by
    intro h1 h3
    have hneg : ¬ (income = .negInf ∧ expenses = .negInf) :=
      fun e => JSNumber.ne_negInf_of_gt_zero income h1 e.1
    exact (ge_eq_sub_ge_zero income expenses (JSNumber.ne_nan_of_gt income .zero h1)
      (JSNumber.ne_nan_of_ge expenses .zero h3) hinf hneg).2.2
  have hvalid : income.gt .zero = true → goal.gt .zero = true →
      expenses.ge .zero = true → (income.sub expenses).gt .zero = true →
      validateSavingGoal income expenses goal =
        .valid (goal.le ((income.sub expenses).mul (.ofNat 12)))
          ((income.sub expenses).mul (.ofNat 12)) (goal.div (.ofNat 12)) := by
    intro h1 h2 h3 h4
    exact validateSavingGoal_of_valid income expenses goal h1 h2 h3
      ((JSNumber.gt_zero_iff_not_le _ (hsurplus h1 h3)).mp h4)
  refine ⟨?_, validateSavingGoal_of_surplus income expenses goal,
    ⟨by decide, by decide⟩, hvalid, ?_⟩
  · constructor
    · rintro ⟨r, m, q, h⟩
      cases h1 : income.gt .zero with
      | false =>
        obtain ⟨msg, hm⟩ := validateSavingGoal_invalid_of_field income expenses goal
          (Or.inl h1)
        rw [hm] at h
        cases h
      | true =>
        cases h2 : goal.gt .zero with
        | false =>
          obtain ⟨msg, hm⟩ := validateSavingGoal_invalid_of_field income expenses goal
            (Or.inr (Or.inl h2))
          rw [hm] at h
          cases h
        | true =>
          cases h3 : expenses.ge .zero with
          | false =>
            obtain ⟨msg, hm⟩ := validateSavingGoal_invalid_of_field income expenses goal
              (Or.inr (Or.inr h3))
            rw [hm] at h
            cases h
          | true =>
            cases h4 : (income.sub expenses).le .zero with
            | true =>
              rw [validateSavingGoal_of_surplus income expenses goal h1 h2 h3 h4] at h
              cases h
            | false =>
              exact ⟨rfl, rfl, rfl,
                (JSNumber.gt_zero_iff_not_le _ (hsurplus h1 h3)).mpr h4⟩
    · rintro ⟨h1, h2, h3, h4⟩
      exact ⟨_, _, _, hvalid h1 h2 h3 h4⟩
  · intro a b ha hb
    rw [ha, hb]
    exact (sub_finite_sign a b).2.2.1

/-- Witness of `validateSavingGoal_characterisation`: income 1000, expenses
1200, goal 5000 fails with the surplus message. -/
theorem validateSavingGoal_characterisation_witness :
    validateSavingGoal (.ofNat 1000) (.ofNat 1200) (.ofNat 5000) =
      .invalid "Monthly surplus is zero or negative. Balance your budget first." :=
  (validateSavingGoal_characterisation (.ofNat 1000) (.ofNat 1200) (.ofNat 5000)
    (by decide!)).2.1 (by decide!) (by decide!) (by decide!) (by decide!)

/-- The rounding of the code is kept: `validateSavingGoal(1.3, 0.1, 14.4)`
returns isRealistic false, maxAnnualSavings 14.399999999999999 and
monthlyRequired 1.2, and `validateSavingGoal(1000, 500, 100)` returns
monthlyRequired 8.333333333333334. -/
theorem validateSavingGoal_rounding :
    validateSavingGoal (.ofDecimal 13 1) (.ofDecimal 1 1) (.ofDecimal 144 1) =
      .valid false (.ofDecimal 14399999999999999 15) (.ofDecimal 12 1) ∧
    validateSavingGoal (.ofNat 1000) (.ofNat 500) (.ofNat 100) =
      .valid true (.ofNat 6000) (.ofDecimal 8333333333333334 15) := by
  decide!

/-! ## Profile title, streak message, financial tip -/

/-- C17: `getProfileTitle` is a monotone three-tier lookup. For every integer
point value (so for every p >= 0) the result is the beginner title for
p <= 99, Smart Planner for 100 <= p <= 199 and Money Master for p >= 200; it is
one of these three distinct titles; and for p <= q the tier rank of the title
of p is at most the tier rank of the title of q. -/
theorem getProfileTitle_tiers (p q : Int) :
    (p ≤ 99 → getProfileTitle p = "🌱 Financial Beginner") ∧
    (100 ≤ p → p ≤ 199 → getProfileTitle p = "🎯 Smart Planner") ∧
    (200 ≤ p → getProfileTitle p = "💎 Money Master") ∧
    getProfileTitle p ∈ ["🌱 Financial Beginner", "🎯 Smart Planner", "💎 Money Master"] ∧
    ["🌱 Financial Beginner", "🎯 Smart Planner", "💎 Money Master"].Nodup ∧
    (p ≤ q → tierRank (getProfileTitle p) ≤ tierRank (getProfileTitle q)) := by
  have hlow : ∀ x : Int, x ≤ 99 → getProfileTitle x = "🌱 Financial Beginner" := by
    intro x h
    have h1 : ¬ x ≥ 200 := by omega
    have h2 : ¬ x ≥ 100 := by omega
    simp [getProfileTitle, h1, h2]
  have hmid : ∀ x : Int, 100 ≤ x → x ≤ 199 → getProfileTitle x = "🎯 Smart Planner" := by
    intro x h h3
    have h1 : ¬ x ≥ 200 := by omega
    have h2 : x ≥ 100 := h
    simp [getProfileTitle, h1, h2]
  have htop : ∀ x : Int, 200 ≤ x → getProfileTitle x = "💎 Money Master" := by
    intro x h
    have h1 : x ≥ 200 := h
    simp [getProfileTitle, h1]
  have rlow : tierRank "🌱 Financial Beginner" = 0 := by decide
  have rmid : tierRank "🎯 Smart Planner" = 1 := by decide
  have rtop : tierRank "💎 Money Master" = 2 := by decide
  refine ⟨hlow p, hmid p, htop p, ?_, by decide, ?_⟩
  · by_cases h1 : p ≤ 99
    · simp [hlow p h1]
    · by_cases h2 : p ≤ 199
      · simp [hmid p (by omega) h2]
      · simp [htop p (by omega)]
  · intro hpq
    by_cases h1 : q ≤ 99
    · rw [hlow q h1, hlow p (by omega)]
    · by_cases h2 : q ≤ 199
      · rw [hmid q (by omega) h2, rmid]
        by_cases h3 : p ≤ 99
        · rw [hlow p h3, rlow]
          omega
        · rw [hmid p (by omega) (by omega), rmid]
      · rw [htop q (by omega), rtop]
        by_cases h3 : p ≤ 99
        · rw [hlow p h3, rlow]
          omega
        · by_cases h4 : p ≤ 199
          · rw [hmid p (by omega) h4, rmid]
            omega
          · rw [htop p (by omega), rtop]

/-- Witness of `getProfileTitle_tiers`: 199 points are Smart Planner, 200 points
Money Master, and the rank does not go down from 199 to 200. -/
theorem getProfileTitle_tiers_witness :
    getProfileTitle 199 = "🎯 Smart Planner" ∧
    tierRank (getProfileTitle 199) ≤ tierRank (getProfileTitle 200) :=
  ⟨(getProfileTitle_tiers 199 200).2.1 (by decide) (by decide),
   (getProfileTitle_tiers 199 200).2.2.2.2.2 (by decide)⟩

/-- C18: the tier boundaries of `getStreakMessage` are inclusive at 3 and 7.
For every integer streak (so for every s >= 0) the result is the top message
exactly when s >= 7, the middle message exactly when 3 <= s <= 6, and the
baseline message exactly when s <= 2. -/
theorem getStreakMessage_boundaries (s : Int) :
    (getStreakMessage s = "🏆 Financial Discipline Master!" ↔ 7 ≤ s) ∧
    (getStreakMessage s = "✨ Consistency Builder!" ↔ (3 ≤ s ∧ s ≤ 6)) ∧
    (getStreakMessage s = "Keep it up!" ↔ s ≤ 2) := by
  have d1 : "🏆 Financial Discipline Master!" ≠ "✨ Consistency Builder!" := by decide
  have d2 : "🏆 Financial Discipline Master!" ≠ "Keep it up!" := by decide
  have d3 : "✨ Consistency Builder!" ≠ "Keep it up!" := by decide
  by_cases h7 : s ≥ 7
  · have e : getStreakMessage s = "🏆 Financial Discipline Master!" := by
      simp [getStreakMessage, h7]
    rw [e]
    refine ⟨⟨fun _ => h7, fun _ => rfl⟩, ⟨fun h => absurd h d1, fun h => ?_⟩,
      ⟨fun h => absurd h d2, fun h => ?_⟩⟩
    · omega
    · omega
  · by_cases h3 : s ≥ 3
    · have e : getStreakMessage s = "✨ Consistency Builder!" := by
        simp [getStreakMessage, h7, h3]
      rw [e]
      refine ⟨⟨fun h => absurd h.symm d1, fun h => absurd h h7⟩,
        ⟨fun _ => ⟨h3, by omega⟩, fun _ => rfl⟩, ⟨fun h => absurd h d3, fun h => ?_⟩⟩
      omega
    · have e : getStreakMessage s = "Keep it up!" := by
        simp [getStreakMessage, h7, h3]
      rw [e]
      refine ⟨⟨fun h => absurd h.symm d2, fun h => absurd h h7⟩,
        ⟨fun h => absurd h.symm d3, fun h => absurd h.1 h3⟩,
        ⟨fun _ => by omega, fun _ => rfl⟩⟩

/-- Witness of `getStreakMessage_boundaries`: the streaks 7 and 3. -/
theorem getStreakMessage_boundaries_witness :
    getStreakMessage 7 = "🏆 Financial Discipline Master!" ∧
    getStreakMessage 3 = "✨ Consistency Builder!" :=
  ⟨(getStreakMessage_boundaries 7).1.mpr (by decide),
   (getStreakMessage_boundaries 3).2.1.mpr (by decide)⟩

/-- C19 at the failing input: `toString` is an identifier outside the set of
four modules, and `getFinancialTip("toString")` is the function inherited by
the table `tips` from `Object.prototype`, not the fallback string
"Great job! Keep learning.". -/
theorem getFinancialTip_inherited_name :
    "toString" ∉ fixedModules ∧
    getFinancialTip "toString" = .inheritedMember "toString" ∧
    getFinancialTip "toString" ≠ .text "Great job! Keep learning." := by
  decide

/-- The lookup where the fallback works: `getFinancialTip` returns the fixed
tip of each of the four modules, and for every other identifier that is not the
name of a member inherited from `Object.prototype` it returns the fallback
string "Great job! Keep learning.". -/
theorem getFinancialTip_lookup (m : String) :
    getFinancialTip "budgeting" =
      .text "💡 Tip: Follow the 50-30-20 rule to manage income efficiently." ∧
    getFinancialTip "saving" =
      .text "💡 Tip: Always build an emergency fund before investing." ∧
    getFinancialTip "invest" = .text "💡 Tip: Diversification reduces financial risk." ∧
    getFinancialTip "expense" =
      .text "💡 Tip: Small daily expenses accumulate over time." ∧
    (m ∉ fixedModules → m ∉ objectPrototypeMembers →
      getFinancialTip m = .text "Great job! Keep learning.") := by
  refine ⟨by decide, by decide, by decide, by decide, ?_⟩
  intro h1 h2
  simp only [fixedModules, List.mem_cons, List.mem_singleton, List.not_mem_nil,
    or_false, not_or] at h1
  obtain ⟨a, b, c, d⟩ := h1
  unfold getFinancialTip
  simp only [a, b, c, d, h2, if_false]

/-- Witness of `getFinancialTip_lookup`: the unknown module `quiz`. -/
theorem getFinancialTip_lookup_witness :
    getFinancialTip "quiz" = .text "Great job! Keep learning." :=
  (getFinancialTip_lookup "quiz").2.2.2.2 (by decide) (by decide)

/-! ## Export and import -/

/-- With no entry stored, `exportUserData` returns the text "No user data". -/
theorem exportUserData_no_entry (host : JsonHost) :
    exportUserData host none = some "No user data" := by
  simp [exportUserData, getCurrentUser, JsonValue.truthy]

theorem demoJsonHost_parse_pretty :
    demoJsonHost.parse demoPrettyText = some (demoUser "11/4/2026").toJson := by
  simp [demoJsonHost]

theorem demoJsonHost_parse_garbage : demoJsonHost.parse "not json" = none := by
  have h : "not json" ≠ demoCompactText ∧ "not json" ≠ demoPrettyText := by decide
  simp [demoJsonHost, h]

/-- C16: `importUserData` fails atomically. For every input text it returns
false exactly when `JSON.parse` rejects the text; in that case the store is left
as it was; when the text is well-formed it returns true and the store holds the
text of the parsed value, whatever was stored before. -/
theorem importUserData_atomic (host : JsonHost) (jsonString : String)
    (store : TextStore) :
    ((importUserData host jsonString store).2 = false ↔ host.parse jsonString = none) ∧
    (host.parse jsonString = none →
      (importUserData host jsonString store).1 = store) ∧
    (∀ v : JsonValue, host.parse jsonString = some v →
      importUserData host jsonString store = (some (host.stringify v), true) ∧
      ∀ other : TextStore,
        (importUserData host jsonString other).1 =
          (importUserData host jsonString store).1) := by
  cases h : host.parse jsonString with
  | none => simp [importUserData, h]
  | some v => simp [importUserData, h, saveUser]

/-- Witness of `importUserData_atomic`: a text that is not JSON leaves the
stored demo text in place, and the pretty text of the demo record replaces an
empty store. -/
theorem importUserData_atomic_witness :
    (importUserData demoJsonHost "not json" (some demoCompactText)).1 =
      some demoCompactText ∧
    importUserData demoJsonHost demoPrettyText none =
      (some (demoJsonHost.stringify (demoUser "11/4/2026").toJson), true) :=
  ⟨(importUserData_atomic demoJsonHost "not json" (some demoCompactText)).2.1
      demoJsonHost_parse_garbage,
   ((importUserData_atomic demoJsonHost demoPrettyText none).2.2
      (demoUser "11/4/2026").toJson demoJsonHost_parse_pretty).1⟩

/-! ## Counting completed modules -/

theorem trueCount_eq_length_trueKeys (obj : List (String × Bool)) :
    ((obj.map Prod.snd).filter (fun v => v)).length =
      ((obj.filter (fun e => e.2)).map Prod.fst).length := by
  induction obj with
  | nil => rfl
  | cons e rest ih =>
    obtain ⟨k, v⟩ := e
    cases v <;> simp [List.filter_cons] at ih ⊢ <;> exact ih

theorem trueKeys_nodup (obj : List (String × Bool)) (h : (obj.map Prod.fst).Nodup) :
    ((obj.filter (fun e => e.2)).map Prod.fst).Nodup :=
  List.Nodup.sublist ((List.filter_sublist obj).map Prod.fst) h

theorem length_le_four (l : List String) (h : l.Nodup) (hs : ∀ m ∈ l, m ∈ fixedModules) :
    l.length ≤ 4 := by
  have := (List.subperm_of_subset h hs).length_le
  simpa [fixedModules] using this

theorem mem_of_ownProp (obj : List (String × Bool)) (k : String) (v : Bool)
    (h : ownProp obj k = some v) : (k, v) ∈ obj := by
  induction obj with
  | nil => simp [ownProp] at h
  | cons e rest ih =>
    obtain ⟨k2, v2⟩ := e
    by_cases hk : k2 = k
    · subst hk
      simp [ownProp] at h
      simp [h]
    · simp [ownProp, hk] at h
      exact List.mem_cons_of_mem _ (ih h)

theorem ownProp_of_mem (obj : List (String × Bool)) (k : String) (v : Bool)
    (hn : (obj.map Prod.fst).Nodup) (h : (k, v) ∈ obj) : ownProp obj k = some v := by
  induction obj with
  | nil => simp at h
  | cons e rest ih =>
    obtain ⟨k2, v2⟩ := e
    simp only [List.map_cons, List.nodup_cons] at hn
    rcases List.mem_cons.mp h with h1 | h1
    · cases h1
      simp [ownProp]
    · have hk : k2 ≠ k := by
        intro e
        subst e
        exact hn.1 (List.mem_map_of_mem Prod.fst h1)
      simp [ownProp, hk, ih hn.2 h1]

theorem getProp_true_iff (obj : List (String × Bool)) (m : String) :
    getProp obj m = .bool true ↔ ownProp obj m = some true := by
  unfold getProp
  cases h : ownProp obj m with
  | none =>
    by_cases hm : m ∈ objectPrototypeMembers <;> simp [hm]
  | some v => simp

theorem mem_trueKeys_iff (obj : List (String × Bool)) (m : String) :
    m ∈ (obj.filter (fun e => e.2)).map Prod.fst ↔ (m, true) ∈ obj := by
  constructor
  · intro h
    obtain ⟨⟨k, v⟩, he, hk⟩ := List.mem_map.mp h
    obtain ⟨hmem, hv⟩ := List.mem_filter.mp he
    simp only at hk hv
    subst hk
    rw [hv] at hmem
    exact hmem
  · intro h
    exact List.mem_map.mpr ⟨(m, true), List.mem_filter.mpr ⟨h, rfl⟩, rfl⟩

theorem all_completed_iff (obj : List (String × Bool))
    (hn : (obj.map Prod.fst).Nodup)
    (hs : ∀ m ∈ (obj.filter (fun e => e.2)).map Prod.fst, m ∈ fixedModules) :
    ((obj.filter (fun e => e.2)).map Prod.fst).length = 4 ↔
      ∀ m ∈ fixedModules, getProp obj m = .bool true := by
  have hnd := trueKeys_nodup obj hn
  have hfix : fixedModules.Nodup := by decide
  constructor
  · intro hlen m hm
    have hperm := (List.subperm_of_subset hnd hs).perm_of_length_le
      (by rw [hlen]; decide)
    have hmem : m ∈ (obj.filter (fun e => e.2)).map Prod.fst := hperm.mem_iff.mpr hm
    rw [getProp_true_iff]
    exact ownProp_of_mem obj m true hn ((mem_trueKeys_iff obj m).mp hmem)
  · intro hall
    have hsub : ∀ m ∈ fixedModules, m ∈ (obj.filter (fun e => e.2)).map Prod.fst := by
      intro m hm
      exact (mem_trueKeys_iff obj m).mpr
        (mem_of_ownProp obj m true ((getProp_true_iff obj m).mp (hall m hm)))
    have h1 := (List.subperm_of_subset hfix hsub).length_le
    have h2 := length_le_four _ hnd hs
    have h3 : fixedModules.length = 4 := by decide
    omega

theorem keys_setTrue (obj : List (String × Bool)) (m : String) :
    (setTrue obj m).map Prod.fst =
      if m ∈ obj.map Prod.fst then obj.map Prod.fst else obj.map Prod.fst ++ [m] := by
  induction obj with
  | nil => simp [setTrue]
  | cons e rest ih =>
    obtain ⟨k, v⟩ := e
    by_cases hk : k = m
    · subst hk
      simp [setTrue]
    · have hk2 : ¬ m = k := fun e => hk e.symm
      simp only [setTrue, hk, if_false, List.map_cons, ih, List.mem_cons, hk2, false_or]
      split <;> simp

theorem keys_setTrue_nodup (obj : List (String × Bool)) (m : String)
    (hn : (obj.map Prod.fst).Nodup) : ((setTrue obj m).map Prod.fst).Nodup := by
  rw [keys_setTrue]
  split
  · exact hn
  · rename_i hm
    rw [List.nodup_append]
    refine ⟨hn, List.nodup_singleton _, ?_⟩
    intro a ha hs
    rw [List.mem_singleton] at hs
    subst hs
    exact hm ha

theorem mem_setTrue (obj : List (String × Bool)) (m k : String) (v : Bool)
    (h : (k, v) ∈ setTrue obj m) : (k = m ∧ v = true) ∨ (k, v) ∈ obj := by
  induction obj with
  | nil =>
    simp [setTrue] at h
    exact Or.inl h
  | cons e rest ih =>
    obtain ⟨k2, v2⟩ := e
    by_cases hk : k2 = m
    · subst hk
      simp only [setTrue, if_true, List.mem_cons, Prod.mk.injEq] at h
      rcases h with h | h
      · exact Or.inl h
      · exact Or.inr (List.mem_cons_of_mem _ h)
    · simp only [setTrue, hk, if_false, List.mem_cons] at h
      rcases h with h | h
      · exact Or.inr (by rw [h]; exact List.mem_cons_self _ _)
      · rcases ih h with h2 | h2
        · exact Or.inl h2
        · exact Or.inr (List.mem_cons_of_mem _ h2)

theorem trueCount_setTrue (obj : List (String × Bool)) (m : String)
    (h : ownProp obj m ≠ some true) :
    (((setTrue obj m).map Prod.snd).filter (fun v => v)).length =
      ((obj.map Prod.snd).filter (fun v => v)).length + 1 := by
  induction obj with
  | nil => simp [setTrue]
  | cons e rest ih =>
    obtain ⟨k, v⟩ := e
    by_cases hk : k = m
    · subst hk
      have hv : v = false := by
        cases v with
        | false => rfl
        | true => simp [ownProp] at h
      subst hv
      simp [setTrue]
    · have h2 : ownProp rest m ≠ some true := by
        simpa [ownProp, hk] using h
      cases v <;> simp [setTrue, hk, ih h2]

theorem completedCount_eq_length (u : User) :
    completedCount u = (completedKeys u).length :=
  trueCount_eq_length_trueKeys u.completedModules

theorem completedCount_le_four (u : User) (hkeys : (moduleKeys u).Nodup)
    (hfour : ∀ m ∈ completedKeys u, m ∈ fixedModules) : completedCount u ≤ 4 := by
  rw [completedCount_eq_length]
  exact length_le_four _ (trueKeys_nodup _ hkeys) hfour

theorem completedCount_eq_four_iff (u : User) (hkeys : (moduleKeys u).Nodup)
    (hfour : ∀ m ∈ completedKeys u, m ∈ fixedModules) :
    completedCount u = 4 ↔
      ∀ m ∈ fixedModules, getProp u.completedModules m = .bool true := by
  rw [completedCount_eq_length]
  exact all_completed_iff _ hkeys hfour

theorem percentage_eq_hundred_iff (c : Nat) : ((c : ℚ) / 4) * 100 = 100 ↔ c = 4 := by
  constructor
  · intro h
    have h2 : (c : ℚ) = 4 := by linarith
    exact_mod_cast h2
  · intro h
    subst h
    norm_num

/-! ## Progress bar -/

/-- C14, as stated, fails. After `awardBadge` calls for `saving`, `invest`,
`expense` and a fifth module `quiz` the demo record has five true values:
`completedCount` is 5, the percentage 125 and the message "-1 module(s)
remaining". After calls for `saving`, `invest` and `quiz` only, the percentage
is 100 and the "all modules completed" branch is taken although `expense` is
not completed. -/
theorem updateProgressBar_fifth_module :
    awardAll [⟨"saving", "Smart Saver", 50⟩, ⟨"invest", "Wise Investor", 50⟩,
        ⟨"expense", "Expense Tracker", 50⟩, ⟨"quiz", "Quiz Champion", 50⟩]
      (initDemoUser "11/4/2026") = some fiveModulesUser ∧
    (updateProgressBar fiveModulesUser).completedCount = 5 ∧
    (updateProgressBar fiveModulesUser).progressPercentage = 125 ∧
    (updateProgressBar fiveModulesUser).message = .remaining (-1) ∧
    awardAll [⟨"saving", "Smart Saver", 50⟩, ⟨"invest", "Wise Investor", 50⟩,
        ⟨"quiz", "Quiz Champion", 50⟩]
      (initDemoUser "11/4/2026") = some quizUser ∧
    (updateProgressBar quizUser).message = .allCompleted ∧
    getProp quizUser.completedModules "expense" = .bool false := by
  have c5 : completedCount fiveModulesUser = 5 := by decide
  have c4 : completedCount quizUser = 4 := by decide
  refine ⟨by decide, c5, ?_, ?_, by decide, ?_, by decide⟩
  · simp only [updateProgressBar, c5]
    norm_num
  · simp only [updateProgressBar, c5]
    norm_num
  · simp only [updateProgressBar, c4]
    norm_num

/-- C14, amended: for every user record in which every completed (true) entry
of `completedModules` belongs to one of the four modules, `completedCount` lies
in 0..4, percentage = completedCount / 4 * 100, which is one of 0, 25, 50, 75,
100, remaining = 4 - completedCount lies in 0..4, and the "all modules
completed" branch is taken exactly when all four modules are completed, which
is exactly when the percentage is 100; otherwise the message is "N module(s)
remaining" with N = 4 - completedCount. The own keys of the object are
distinct, as in every plain object. -/
theorem updateProgressBar_progress (u : User) (hkeys : (moduleKeys u).Nodup)
    (hfour : ∀ m ∈ completedKeys u, m ∈ fixedModules) :
    (updateProgressBar u).completedCount = completedCount u ∧
    (updateProgressBar u).completedCount ≤ 4 ∧
    (updateProgressBar u).progressPercentage =
      ((updateProgressBar u).completedCount : ℚ) / 4 * 100 ∧
    ((updateProgressBar u).progressPercentage = 0 ∨
      (updateProgressBar u).progressPercentage = 25 ∨
      (updateProgressBar u).progressPercentage = 50 ∨
      (updateProgressBar u).progressPercentage = 75 ∨
      (updateProgressBar u).progressPercentage = 100) ∧
    (0 ≤ 4 - ((updateProgressBar u).completedCount : Int) ∧
      4 - ((updateProgressBar u).completedCount : Int) ≤ 4) ∧
    ((updateProgressBar u).message = .allCompleted ↔
      ∀ m ∈ fixedModules, getProp u.completedModules m = .bool true) ∧
    ((updateProgressBar u).message = .allCompleted ↔
      (updateProgressBar u).progressPercentage = 100) ∧
    ((updateProgressBar u).message ≠ .allCompleted →
      (updateProgressBar u).message =
        .remaining (4 - ((updateProgressBar u).completedCount : Int))) := by
  have hle : completedCount u ≤ 4 := completedCount_le_four u hkeys hfour
  have hall := completedCount_eq_four_iff u hkeys hfour
  have hpct := percentage_eq_hundred_iff (completedCount u)
  have hmsg : (updateProgressBar u).message = .allCompleted ↔ completedCount u = 4 := by
    by_cases h4 : completedCount u = 4
    · simp [updateProgressBar, hpct.mpr h4, h4]
    · have h5 : ¬ ((completedCount u : ℚ) / 4) * 100 = 100 := fun h => h4 (hpct.mp h)
      simp [updateProgressBar, h5, h4]
  refine ⟨rfl, hle, rfl, ?_, ?_, hmsg.trans hall, hmsg.trans hpct.symm, ?_⟩
  · have hpe : (updateProgressBar u).progressPercentage =
        ((completedCount u : ℚ) / 4) * 100 := rfl
    rw [hpe]
    have hc : completedCount u = 0 ∨ completedCount u = 1 ∨ completedCount u = 2 ∨
        completedCount u = 3 ∨ completedCount u = 4 := by omega
    rcases hc with h | h | h | h | h <;> rw [h] <;> norm_num
  · show 0 ≤ 4 - (completedCount u : Int) ∧ 4 - (completedCount u : Int) ≤ 4
    omega
  · intro hne
    have h4 : ¬ completedCount u = 4 := fun h => hne (hmsg.mpr h)
    have h5 : ¬ ((completedCount u : ℚ) / 4) * 100 = 100 := fun h => h4 (hpct.mp h)
    simp [updateProgressBar, h5]

/-- Witness of `updateProgressBar_progress`: the demo record, with one of four
modules completed. -/
theorem updateProgressBar_progress_witness :
    (updateProgressBar (demoUser "11/4/2026")).completedCount ≤ 4 ∧
    ((updateProgressBar (demoUser "11/4/2026")).message ≠ .allCompleted →
      (updateProgressBar (demoUser "11/4/2026")).message =
        .remaining
          (4 - ((updateProgressBar (demoUser "11/4/2026")).completedCount : Int))) :=
  ⟨(updateProgressBar_progress (demoUser "11/4/2026") (by decide) (by decide)).2.1,
   (updateProgressBar_progress (demoUser "11/4/2026") (by decide)
     (by decide)).2.2.2.2.2.2.2⟩

/-! ## Points under the 50-point policy -/

theorem grant_tracks (m b : String) (u : User) (h : PointsTrackModules u)
    (hm : m ∈ fixedModules) (hf : (getProp u.completedModules m).truthy = false) :
    PointsTrackModules (grant m b 50 u) := by
  obtain ⟨hkeys, hfour, hpts⟩ := h
  refine ⟨keys_setTrue_nodup _ m hkeys, ?_, ?_⟩
  · intro k hk
    have hk2 : (k, true) ∈ setTrue u.completedModules m :=
      (mem_trueKeys_iff _ k).mp hk
    rcases mem_setTrue _ m k true hk2 with h1 | h1
    · rw [h1.1]
      exact hm
    · exact hfour k ((mem_trueKeys_iff _ k).mpr h1)
  · have hown : ownProp u.completedModules m ≠ some true := by
      intro e
      have hg : getProp u.completedModules m = .bool true :=
        (getProp_true_iff _ m).mpr e
      rw [hg] at hf
      cases hf
    have hpts2 : u.points =
        50 * (((u.completedModules.map Prod.snd).filter (fun v => v)).length : Int) := hpts
    show u.points + 50 =
      50 * ((((setTrue u.completedModules m).map Prod.snd).filter (fun v => v)).length : Int)
    rw [trueCount_setTrue _ m hown, hpts2]
    push_cast
    ring

theorem awardAll_tracks (calls : List AwardCall) :
    ∀ u : User, PointsTrackModules u → PolicyCalls calls →
      ∃ v : User, awardAll calls (some u) = some v ∧ PointsTrackModules v := by
  induction calls with
  | nil =>
    intro u h _
    exact ⟨u, rfl, h⟩
  | cons c rest ih =>
    intro u h hcalls
    obtain ⟨hc, hp⟩ := hcalls c (List.mem_cons_self _ _)
    have hrest : PolicyCalls rest := fun d hd => hcalls d (List.mem_cons_of_mem _ hd)
    have hstep : ∃ w : User,
        (awardBadge c.moduleName c.badgeName c.points (some u)).1 = some w ∧
        PointsTrackModules w := by
      rcases awardBadge_some c.moduleName c.badgeName c.points u with h1 | ⟨hf, h2⟩
      · exact ⟨u, h1, h⟩
      · refine ⟨_, h2, ?_⟩
        rw [hp]
        exact grant_tracks c.moduleName c.badgeName u h hc hf
    obtain ⟨w, hw, hwt⟩ := hstep
    obtain ⟨v, hv, hvt⟩ := ih w hwt hrest
    refine ⟨v, ?_, hvt⟩
    simp only [awardAll, List.foldl_cons] at hv ⊢
    rw [hw]
    exact hv

/-- What the 50-point policy gives on a record: the points are 50 per
completed module and at most 200, the next milestone is not reached, and the
title is the top title exactly when all four modules are completed. -/
theorem tracks_consequences (v : User) (h : PointsTrackModules v) :
    v.points = 50 * (completedCount v : Int) ∧
    v.points ≤ 200 ∧
    (getNextMilestone v.points).reached = false ∧
    (getProfileTitle v.points = "💎 Money Master" ↔
      ∀ m ∈ fixedModules, getProp v.completedModules m = .bool true) := by
  obtain ⟨hkeys, hfour, hpts⟩ := h
  have hle : completedCount v ≤ 4 := completedCount_le_four v hkeys hfour
  have hall := completedCount_eq_four_iff v hkeys hfour
  have hp : v.points = 50 * (completedCount v : Int) := hpts
  have hc : completedCount v = 0 ∨ completedCount v = 1 ∨ completedCount v = 2 ∨
      completedCount v = 3 ∨ completedCount v = 4 := by omega
  refine ⟨hp, by omega, ?_, ?_⟩
  · rcases hc with e | e | e | e | e <;> rw [hp, e] <;> decide
  · rw [← hall]
    rcases hc with e | e | e | e | e <;> rw [hp, e] <;> decide

/-- C20: points track completed modules under the 50-point policy. Starting
from a record with points = 0 and no module completed, or from the record of
`initDemoUser`, after every finite sequence of `awardBadge` calls whose module
is one of the four fixed modules and whose point value is 50, a record is
stored with points = 50 * (number of completed modules), hence points <= 200;
on it `getNextMilestone(points)` has reached = false, and
`getProfileTitle(points)` is the top title exactly when all four modules are
completed. The own keys of `completedModules` are distinct, as in every plain
object. -/
theorem points_track_completed_modules :
    (∀ (u : User) (calls : List AwardCall),
      u.points = 0 → (∀ e ∈ u.completedModules, e.2 = false) →
      (moduleKeys u).Nodup → PolicyCalls calls →
      ∃ v : User, awardAll calls (some u) = some v ∧
        v.points = 50 * (completedCount v : Int) ∧
        v.points ≤ 200 ∧
        (getNextMilestone v.points).reached = false ∧
        (getProfileTitle v.points = "💎 Money Master" ↔
          ∀ m ∈ fixedModules, getProp v.completedModules m = .bool true)) ∧
    (∀ (today : String) (calls : List AwardCall), PolicyCalls calls →
      ∃ v : User, awardAll calls (initDemoUser today) = some v ∧
        v.points = 50 * (completedCount v : Int) ∧
        v.points ≤ 200 ∧
        (getNextMilestone v.points).reached = false ∧
        (getProfileTitle v.points = "💎 Money Master" ↔
          ∀ m ∈ fixedModules, getProp v.completedModules m = .bool true)) := by
  constructor
  · intro u calls hzero hnone hkeys hcalls
    have hfilter : u.completedModules.filter (fun e => e.2) = [] := by
      rw [List.filter_eq_nil_iff]
      intro e he
      simp [hnone e he]
    have hcount : completedCount u = 0 := by
      rw [completedCount_eq_length]
      simp [completedKeys, hfilter]
    have hinit : PointsTrackModules u := by
      refine ⟨hkeys, ?_, ?_⟩
      · intro m hm
        simp [completedKeys, hfilter] at hm
      · rw [hcount, hzero]
        rfl
    obtain ⟨v, hv, hvt⟩ := awardAll_tracks calls u hinit hcalls
    exact ⟨v, hv, tracks_consequences v hvt⟩
  · intro today calls hcalls
    have hinit : PointsTrackModules (demoUser today) := by
      refine ⟨?_, ?_, ?_⟩
      · show (["budgeting", "saving", "invest", "expense"] : List String).Nodup
        decide
      · show ∀ m ∈ (["budgeting"] : List String), m ∈ fixedModules
        decide
      · show (50 : Int) = 50 * ((1 : Nat) : Int)
        decide
    obtain ⟨v, hv, hvt⟩ := awardAll_tracks calls (demoUser today) hinit hcalls
    exact ⟨v, hv, tracks_consequences v hvt⟩

/-- Witness of `points_track_completed_modules`: the demo record after
`saving` has been awarded twice and `invest` once, 50 points each. -/
theorem points_track_completed_modules_witness :
    ∃ v : User,
      awardAll [⟨"saving", "Smart Saver", 50⟩, ⟨"saving", "Smart Saver", 50⟩,
          ⟨"invest", "Wise Investor", 50⟩] (initDemoUser "11/4/2026") = some v ∧
      v.points = 50 * (completedCount v : Int) ∧
      v.points ≤ 200 ∧
      (getNextMilestone v.points).reached = false ∧
      (getProfileTitle v.points = "💎 Money Master" ↔
        ∀ m ∈ fixedModules, getProp v.completedModules m = .bool true) :=
  points_track_completed_modules.2 "11/4/2026"
    [⟨"saving", "Smart Saver", 50⟩, ⟨"saving", "Smart Saver", 50⟩,
      ⟨"invest", "Wise Investor", 50⟩]
    (by unfold PolicyCalls; decide)

end PblProject
